import Mathlib

/-!
Verification development for the dbsake repository (FRM decoder and
mysqldump splitter).  The definitions below are a shallow embedding of
`src/dbsake/mysqlfrm/binaryfrm.py` and
`src/dbsake/mysqldumpsplit/__init__.py`.  Collaborator modules that are
not part of the two source files (`util.ByteReader`, `charsets`,
`constants`, `mysqltypes`, `keys`, `tablename`, the dump parser and the
DDL rewriter) are either modelled from the specification or abstracted
as explicit parameters, as indicated in the doc comments.

Bytes are modelled as natural numbers below 256 inside `List Nat`;
fallible operations return `Option`.
-/

namespace Dbsake

/-! ## Generic helpers -/

/-- Fuelled most-significant-first decimal digit expansion; the fuel
(`n + 1` at the top call) bounds recursion, one digit per step. -/
def decDigitsAux : Nat → Nat → List Char
  | 0, _ => []
  | fuel + 1, n =>
    if n < 10 then [Nat.digitChar n]
    else decDigitsAux fuel (n / 10) ++ [Nat.digitChar (n % 10)]

/-- Decimal digits of a natural number, most significant first.
Stand-in for Python `str(int)` on non-negative integers. -/
def decDigits (n : Nat) : List Char := decDigitsAux (n + 1) n

/-- Decimal rendering of a natural number (Python `str(int)`). -/
def decRepr (n : Nat) : String := ⟨decDigits n⟩

/-- Python truthiness of an optional string (`None` and `''` are falsy). -/
def optStrTruthy : Option String → Bool
  | none => false
  | some s => s ≠ ""

/-- Python list indexing with negative-index wraparound
(`l[i]`, failing out of range exactly as Python raises `IndexError`). -/
def pyGet {α : Type} (l : List α) (i : Int) : Option α :=
  if 0 ≤ i then l.get? i.toNat
  else if 0 ≤ (l.length : Int) + i then l.get? ((l.length : Int) + i).toNat
  else none

/-- Byte-wise decoding of a byte string into a Lean string (each byte as
one character).  Stand-in for Python 2 byte strings, whose characters
are the raw bytes. -/
def bytesToStr (l : List Nat) : String :=
  ⟨l.map Char.ofNat⟩

/-- Strip a literal character sequence off the front of a list. -/
def stripLit : List Char → List Char → Option (List Char)
  | [], l => some l
  | _ :: _, [] => none
  | p :: ps, c :: cs => if c = p then stripLit ps cs else none

/-- Fuelled splitter on a separator character sequence, Python
`str.split(sep)` semantics: non-overlapping, left to right, at least
one (possibly empty) part.  The fuel (input length at the top call)
bounds recursion; each step consumes at least one character. -/
def splitChars (sep : List Char) : Nat → List Char → List (List Char)
  | _, [] => [[]]
  | 0, l => [l]
  | fuel + 1, c :: rest =>
    match stripLit sep (c :: rest) with
    | some r => [] :: splitChars sep fuel r
    | none =>
      match splitChars sep fuel rest with
      | g :: gs => (c :: g) :: gs
      | [] => [[c]]

/-- Python `str.split(sep)` on strings. -/
def pySplit (s sep : String) : List String :=
  (splitChars sep.data s.data.length s.data).map List.asString

/-- Fuelled replacement of every non-overlapping occurrence, Python
`str.replace(old, new)` semantics. -/
def replaceChars (old new : List Char) : Nat → List Char → List Char
  | 0, l => l
  | _ + 1, [] => []
  | fuel + 1, c :: rest =>
    match stripLit old (c :: rest) with
    | some r => new ++ replaceChars old new fuel r
    | none => c :: replaceChars old new fuel rest

/-- Python `str.replace(old, new)` on strings. -/
def pyReplace (s old new : String) : String :=
  (replaceChars old.data new.data s.data.length s.data).asString

/-- Substring containment as a proposition. -/
def strContains (hay needle : String) : Prop :=
  ∃ x y, hay = x ++ needle ++ y

/-- Boolean substring containment usable on concrete inputs
(for a non-empty needle, splitting yields more than one part exactly
when the needle occurs). -/
def strContainsB (hay needle : String) : Bool :=
  (pySplit hay needle).length != 1

/-! ## ByteReader

Modelled from the spec: `util.ByteReader` (the `dbsake.mysqlfrm.util`
module is not part of the two source files).  A random-access view over
an immutable byte buffer with a cursor; little-endian unsigned reads at
explicit offsets relative to `start` or to the cursor.  The
offset-addressed `uintN_at` reads do not move the cursor (this is the
reading consistent with the fixed per-record field positions of §4.4 of
the spec); `read`, `skip` and the length-prefixed reads advance it.
Out-of-range access fails (`OutOfBounds` / `ShortBuffer`). -/

structure ByteReader where
  data : List Nat
  pos : Nat
deriving Repr, DecidableEq

namespace ByteReader

/-- Single byte at an absolute offset. -/
def byteAt (r : ByteReader) (off : Nat) : Option Nat :=
  r.data.get? off

/-- Resolve an offset against a whence flag (`false` = start, `true` = cur). -/
def resolve (r : ByteReader) (off : Nat) (cur : Bool) : Nat :=
  if cur then r.pos + off else off

/-- Little-endian u8 read at an offset; does not move the cursor. -/
def uint8At (r : ByteReader) (off : Nat) (cur : Bool := false) : Option Nat :=
  r.byteAt (r.resolve off cur)

/-- Little-endian u16 read at an offset; does not move the cursor. -/
def uint16At (r : ByteReader) (off : Nat) (cur : Bool := false) : Option Nat := do
  let b0 ← r.byteAt (r.resolve off cur)
  let b1 ← r.byteAt (r.resolve off cur + 1)
  pure (b0 + b1 * 256)

/-- Little-endian u24 read at an offset; does not move the cursor. -/
def uint24At (r : ByteReader) (off : Nat) (cur : Bool := false) : Option Nat := do
  let b0 ← r.byteAt (r.resolve off cur)
  let b1 ← r.byteAt (r.resolve off cur + 1)
  let b2 ← r.byteAt (r.resolve off cur + 2)
  pure (b0 + b1 * 256 + b2 * 65536)

/-- Little-endian u32 read at an offset; does not move the cursor. -/
def uint32At (r : ByteReader) (off : Nat) (cur : Bool := false) : Option Nat := do
  let b0 ← r.byteAt (r.resolve off cur)
  let b1 ← r.byteAt (r.resolve off cur + 1)
  let b2 ← r.byteAt (r.resolve off cur + 2)
  let b3 ← r.byteAt (r.resolve off cur + 3)
  pure (b0 + b1 * 256 + b2 * 65536 + b3 * 16777216)

/-- Read `n` bytes from the cursor, advancing it; fails if fewer remain. -/
def read (r : ByteReader) (n : Nat) : Option (List Nat × ByteReader) :=
  if r.pos + n ≤ r.data.length then
    some ((r.data.drop r.pos).take n, { r with pos := r.pos + n })
  else none

/-- Read `n` bytes at an absolute offset without moving the cursor. -/
def readAt (r : ByteReader) (n : Nat) (off : Nat) : Option (List Nat) :=
  if off + n ≤ r.data.length then some ((r.data.drop off).take n) else none

/-- Advance the cursor by `n` (Python `seek` relative: always succeeds). -/
def skip (r : ByteReader) (n : Nat) : ByteReader :=
  { r with pos := r.pos + n }

/-- Read a 16-bit length prefix from the cursor and then that many
bytes, advancing the cursor. -/
def bytesPrefix16 (r : ByteReader) : Option (List Nat × ByteReader) := do
  let n ← r.uint16At 0 true
  (r.skip 2).read n

/-- Read a 32-bit length prefix from the cursor and then that many
bytes, advancing the cursor. -/
def bytesPrefix32 (r : ByteReader) : Option (List Nat × ByteReader) := do
  let n ← r.uint32At 0 true
  (r.skip 4).read n

/-- Total size of the underlying buffer; `getvalue()` truthiness is
`size ≠ 0`. -/
def size (r : ByteReader) : Nat := r.data.length

end ByteReader

/-! ## MySQLVersion (`binaryfrm.py`, class `MySQLVersion`) -/

structure MySQLVersion where
  major : Nat
  minor : Nat
  release : Nat
deriving Repr, DecidableEq

/-- `MySQLVersion.from_version_id`: decompose a `MYSQL_VERSION_ID`. -/
def MySQLVersion.fromVersionId (value : Nat) : MySQLVersion :=
  { major := value / 10000
    minor := value % 1000 / 100
    release := value % 100 }

/-- `MySQLVersion.__str__`: the all-zero version renders as `"< 5.0"`,
anything else as dotted `major.minor.release`. -/
def MySQLVersion.str (v : MySQLVersion) : String :=
  if v = ⟨0, 0, 0⟩ then "< 5.0"
  else decRepr v.major ++ "." ++ decRepr v.minor ++ "." ++ decRepr v.release

/-! ## FRM data model (`binaryfrm.py`) -/

/-- Charset record, `(id, name, collation, is_default)`.  The charset
table itself is the `charsets` collaborator module (not in the two
source files). -/
structure Charset where
  id : Nat
  name : String
  collation : String
  is_default : Bool
deriving Repr, DecidableEq

/-- `TableOptions` named tuple of `binaryfrm.py`.  Numeric fields read
from fixed header offsets are plain naturals (Python truthiness `≠ 0`);
fields that can be `None` are `Option`s. -/
structure TableOptions where
  connection : Option String
  engine : Option String
  charset : Option Charset
  min_rows : Nat
  max_rows : Nat
  avg_row_length : Nat
  pack_keys : Option Nat
  delay_key_write : Bool
  checksum : Bool
  row_format : String
  key_block_size : Nat
  stats_persistent : Option Nat
  comment : Option String
  partitions : Option String
deriving Repr, DecidableEq

/-- Greedily split leading decimal digits off a character list. -/
def takeDigits : List Char → List Char × List Char
  | [] => ([], [])
  | c :: rest =>
    if c.isDigit then
      let p := takeDigits rest
      (c :: p.1, p.2)
    else ([], c :: rest)

/-- Match the pattern `[/][*]!\d+ ALGORITHM = \d+ [*][/]` (the regex of
`TableOptions.attributes`) at the head of a character list, returning
the matched text and the remainder. -/
def matchAlgComment : List Char → Option (List Char × List Char)
  | '/' :: '*' :: '!' :: rest =>
    let p1 := takeDigits rest
    if p1.1 = [] then none
    else
      match stripLit " ALGORITHM = ".data p1.2 with
      | none => none
      | some r2 =>
        let p2 := takeDigits r2
        if p2.1 = [] then none
        else
          match stripLit " */".data p2.2 with
          | none => none
          | some r4 =>
            some ('/' :: '*' :: '!' :: p1.1 ++ " ALGORITHM = ".data ++ p2.1 ++ " */".data, r4)
  | _ => none

/-- Fuelled scanner performing the `re.sub` of `TableOptions.attributes`:
each occurrence of the algorithm comment is rewritten to
`*/ <match> /*!50100`, scanning left to right.  The fuel (the input
length at the top call) bounds recursion; every step consumes at least
one character. -/
def patchAlgChars : Nat → List Char → List Char
  | 0, l => l
  | _ + 1, [] => []
  | fuel + 1, c :: rest =>
    match matchAlgComment (c :: rest) with
    | some (m, r) => "*/ ".data ++ m ++ " /*!50100".data ++ patchAlgChars fuel r
    | none => c :: patchAlgChars fuel rest

/-- The partition-clause comment patch of `TableOptions.attributes`. -/
def patchPartitions (s : String) : String :=
  ⟨patchAlgChars s.data.length s.data⟩

/-- `TableOptions.attributes`: the rendered option tail, one list entry
per yielded attribute, in source order. -/
def TableOptions.attributes (o : TableOptions) : List String :=
  (if optStrTruthy o.connection then ["CONNECTION='" ++ o.connection.getD "" ++ "'"] else [])
  ++ (if optStrTruthy o.engine then ["ENGINE=" ++ o.engine.getD ""] else [])
  ++ (match o.charset with
      | some cs =>
        ("DEFAULT CHARSET=" ++ cs.name) ::
          (if ¬cs.is_default then ["COLLATE=" ++ cs.collation] else [])
      | none => [])
  ++ (if o.min_rows ≠ 0 then ["MIN_ROWS=" ++ decRepr o.min_rows] else [])
  ++ (if o.max_rows ≠ 0 then ["MAX_ROWS=" ++ decRepr o.max_rows] else [])
  ++ (if o.avg_row_length ≠ 0 then ["AVG_ROW_LENGTH=" ++ decRepr o.avg_row_length] else [])
  ++ (match o.pack_keys with
      | some v => ["PACK_KEYS=" ++ decRepr v]
      | none => [])
  ++ (match o.stats_persistent with
      | some v => ["STATS_PERSISTENT=" ++ decRepr v]
      | none => [])
  ++ (if o.checksum then ["CHECKSUM=1"] else [])
  ++ (if o.delay_key_write then ["DELAY_KEY_WRITE=1"] else [])
  ++ (if o.row_format ≠ "DEFAULT" then ["ROW_FORMAT=" ++ o.row_format] else [])
  ++ (if o.key_block_size ≠ 0 then ["KEY_BLOCK_SIZE=" ++ decRepr o.key_block_size] else [])
  ++ (if optStrTruthy o.comment then ["COMMENT '" ++ o.comment.getD "" ++ "'"] else [])
  ++ (if optStrTruthy o.partitions then
        ["\n/*!50100 " ++ patchPartitions (o.partitions.getD "") ++ " */"]
      else [])

/-! Spec-side rendering, one definition per attribute, following the
wording of the specification (§4.3 rendering order): used to state the
ordering claim as a refinement of `TableOptions.attributes`. -/

/-- Spec wording: `connection` appears only when set. -/
def connectionAttr (o : TableOptions) : List String :=
  if optStrTruthy o.connection then ["CONNECTION='" ++ o.connection.getD "" ++ "'"] else []

/-- Spec wording: `engine` appears only when set. -/
def engineAttr (o : TableOptions) : List String :=
  if optStrTruthy o.engine then ["ENGINE=" ++ o.engine.getD ""] else []

/-- Spec wording: charset, with a COLLATE clause exactly when the
charset is not the default collation. -/
def charsetAttr (o : TableOptions) : List String :=
  match o.charset with
  | some cs =>
    ["DEFAULT CHARSET=" ++ cs.name] ++
      (if cs.is_default then [] else ["COLLATE=" ++ cs.collation])
  | none => []

/-- Spec wording: `min_rows` appears only when set (non-zero). -/
def minRowsAttr (o : TableOptions) : List String :=
  if o.min_rows ≠ 0 then ["MIN_ROWS=" ++ decRepr o.min_rows] else []

/-- Spec wording: `max_rows` appears only when set (non-zero). -/
def maxRowsAttr (o : TableOptions) : List String :=
  if o.max_rows ≠ 0 then ["MAX_ROWS=" ++ decRepr o.max_rows] else []

/-- Spec wording: `avg_row_length` appears only when set (non-zero). -/
def avgRowLengthAttr (o : TableOptions) : List String :=
  if o.avg_row_length ≠ 0 then ["AVG_ROW_LENGTH=" ++ decRepr o.avg_row_length] else []

/-- Spec wording: `pack_keys` appears whenever present, including 0. -/
def packKeysAttr (o : TableOptions) : List String :=
  match o.pack_keys with
  | some v => ["PACK_KEYS=" ++ decRepr v]
  | none => []

/-- Spec wording: `stats_persistent` appears whenever present, including 0. -/
def statsPersistentAttr (o : TableOptions) : List String :=
  match o.stats_persistent with
  | some v => ["STATS_PERSISTENT=" ++ decRepr v]
  | none => []

/-- Spec wording: `checksum` is rendered only when true, as `CHECKSUM=1`. -/
def checksumAttr (o : TableOptions) : List String :=
  if o.checksum then ["CHECKSUM=1"] else []

/-- Spec wording: `delay_key_write` is rendered only when true, as
`DELAY_KEY_WRITE=1`. -/
def delayKeyWriteAttr (o : TableOptions) : List String :=
  if o.delay_key_write then ["DELAY_KEY_WRITE=1"] else []

/-- Spec wording: `row_format` is omitted when `DEFAULT`. -/
def rowFormatAttr (o : TableOptions) : List String :=
  if o.row_format ≠ "DEFAULT" then ["ROW_FORMAT=" ++ o.row_format] else []

/-- Spec wording: `key_block_size` appears only when set (non-zero). -/
def keyBlockSizeAttr (o : TableOptions) : List String :=
  if o.key_block_size ≠ 0 then ["KEY_BLOCK_SIZE=" ++ decRepr o.key_block_size] else []

/-- Spec wording: `comment` appears only when set. -/
def commentAttr (o : TableOptions) : List String :=
  if optStrTruthy o.comment then ["COMMENT '" ++ o.comment.getD "" ++ "'"] else []

/-- Spec wording: `partitions` appears only when set, wrapped in the
versioned comment guard. -/
def partitionsAttr (o : TableOptions) : List String :=
  if optStrTruthy o.partitions then
    ["\n/*!50100 " ++ patchPartitions (o.partitions.getD "") ++ " */"]
  else []

/-- The option tail in exactly the order listed by the specification:
connection, engine, charset (with collate), min/max/avg rows,
pack_keys, stats_persistent, checksum, delay_key_write, row_format,
key_block_size, comment, partitions. -/
def specAttributes (o : TableOptions) : List String :=
  connectionAttr o ++ engineAttr o ++ charsetAttr o ++ minRowsAttr o ++
    maxRowsAttr o ++ avgRowLengthAttr o ++ packKeysAttr o ++
    statsPersistentAttr o ++ checksumAttr o ++ delayKeyWriteAttr o ++
    rowFormatAttr o ++ keyBlockSizeAttr o ++ commentAttr o ++ partitionsAttr o

/-- Column record of `binaryfrm.py` (`Column` named tuple).
`attributes` is always `()` (`unpack_column_attributes` returns an
empty tuple); `comment` is the raw byte string read from the comments
section. -/
structure Column where
  name : String
  type_code : Nat
  type_name : String
  length : Nat
  attributes : Unit
  default : Option String
  comment : List Nat
  charset : Charset
deriving Repr, DecidableEq

/-- `Table` named tuple of `binaryfrm.py`.  Key definitions are opaque
strings produced by the `keys` collaborator module. -/
structure Table where
  name : String
  charset : Charset
  mysql_version : MySQLVersion
  options : TableOptions
  columns : List Column
  keys : List String
deriving Repr, DecidableEq

/-- The `HaOption` bitfield flags used by `Table.from_data`
(`constants` collaborator module). -/
structure HaOptionFlags where
  pack_keys : Bool
  no_pack_keys : Bool
  stats_persistent : Bool
  no_stats_persistent : Bool
  checksum : Bool
  delay_key_write : Bool
deriving Repr, DecidableEq

/-- The per-column handler context (`util.Bunch` in the source,
record shape per the specification's §9 named-record note). -/
structure ColumnContext where
  table : Table
  null_map : List Nat
  null_bit : Nat
  name : String
  fieldnr : Nat
  length : Nat
  flags : Nat
  unireg_check : Nat
  type_code : Nat
  type_code_name : String
  labels : Option (List String)
  subtype_code : Option String
  charset : Charset

/-- Collaborator bundle for the FRM decoder.  These functions live in
modules outside the two source files (`charsets`, `constants`,
`mysqltypes`, `tablename`, `keys`) and are abstracted here; enum
decodes are partial (`UnknownEnum` is fatal), `unpack_default` and
`format_type` are opaque per the specification, and `unpack_keys` is
modelled from the spec as not advancing the shared extrainfo reader
(§4.5 positions the table comment directly after the three prefixed
strings and the skipped 2 bytes). -/
structure FrmCollab where
  lookupCharset : Nat → Option Charset
  legacyDBTypeName : Nat → Option String
  haRowTypeName : Nat → Option String
  mysqlTypeName : Nat → Option String
  utypeName : Nat → Option String
  geometryTypeName : Nat → Option String
  haOption : Nat → HaOptionFlags
  unpackDefault : ByteReader → ColumnContext → Option (Option String × Nat)
  formatType : ColumnContext → Option String
  filenameToTablename : String → String
  unpackKeys : List Nat → Option (List String)
  decodeText : String → List Nat → Option String

/-- Basename of the path with the extension stripped
(`os.path.basename(os.path.splitext(path)[0])`). -/
def frmBasename (p : String) : String :=
  let base := (pySplit p "/").getLastD ""
  let pieces := pySplit base "."
  if pieces.length ≥ 2 ∧ pieces.headD "" ≠ "" then
    String.intercalate "." pieces.dropLast
  else base

/-- `pack_keys` derivation from the handler options bitfield
(`Table.from_data`). -/
def packKeysOf (h : HaOptionFlags) : Option Nat :=
  if h.pack_keys then some 1 else if h.no_pack_keys then some 0 else none

/-- `stats_persistent` derivation from the handler options bitfield
(`Table.from_data`). -/
def statsPersistentOf (h : HaOptionFlags) : Option Nat :=
  if h.stats_persistent then some 1 else if h.no_stats_persistent then some 0 else none

/-- Extrainfo processing of `Table.from_data`: when the extrainfo
buffer is non-empty, read the three consecutive length-prefixed strings
(connection, engine, partition info) and skip the null/autopartition
trailer; when empty, all three are `None`. -/
def readExtraStrings (extrainfo : ByteReader) :
    Option (Option String × Option String × Option String × ByteReader) :=
  if extrainfo.size ≠ 0 then do
    let (conn, e1) ← extrainfo.bytesPrefix16
    let (eng, e2) ← e1.bytesPrefix16
    let (part, e3) ← e2.bytesPrefix32
    pure (some (bytesToStr conn), some (bytesToStr eng), some (bytesToStr part), e3.skip 2)
  else
    pure (none, none, none, extrainfo)

/-- Engine resolution of `Table.from_data`: `if not engine` (absent or
empty) picks the legacy db type at `0x03`; an engine string equal to
`"partition"` picks the underlying engine at `0x3d`; anything else is
used as-is. -/
def resolveEngine (C : FrmCollab) (data : ByteReader) (engine0 : Option String) :
    Option String :=
  if ¬optStrTruthy engine0 then
    (data.uint8At 0x03).bind C.legacyDBTypeName
  else if engine0 = some "partition" then
    (data.uint8At 0x3d).bind C.legacyDBTypeName
  else
    engine0

/-- `Table.from_data`: build the draft table from fixed header offsets
and the extrainfo section, threading the extrainfo cursor. -/
def Table.fromData (C : FrmCollab) (data : ByteReader) (extrainfo : ByteReader)
    (path : String) : Option (Table × ByteReader) := do
  let name := frmBasename path
  let csId ← data.uint8At 0x26
  let charset ← C.lookupCharset csId
  let vid ← data.uint32At 0x33
  let min_rows ← data.uint32At 0x16
  let max_rows ← data.uint32At 0x12
  let avg_row_length ← data.uint32At 0x22
  let rf ← data.uint8At 0x28
  let row_format ← C.haRowTypeName rf
  let key_block_size ← data.uint16At 0x3e
  let hoRaw ← data.uint16At 0x1e
  let handler_options := C.haOption hoRaw
  let (connection, engine0, partition_info, extrainfo1) ← readExtraStrings extrainfo
  let engine ← resolveEngine C data engine0
  pure
    ({ name := C.filenameToTablename name
       charset := charset
       mysql_version := MySQLVersion.fromVersionId vid
       options :=
         { connection := connection
           engine := some engine
           charset := some charset
           min_rows := min_rows
           max_rows := max_rows
           avg_row_length := avg_row_length
           pack_keys := packKeysOf handler_options
           stats_persistent := statsPersistentOf handler_options
           checksum := handler_options.checksum
           delay_key_write := handler_options.delay_key_write
           row_format := row_format
           key_block_size := key_block_size
           comment := none
           partitions := partition_info }
       columns := []
       keys := [] }, extrainfo1)

/-! ## Column unpacking (`binaryfrm.py`, `unpack_columns`) -/

/-- Packed column byte strings (`PackedColumnData` named tuple). -/
structure PackedColumnData where
  count : Nat
  null_count : Nat
  names : List Nat
  labels : List Nat
  metadata : List Nat
  defaults : List Nat
  comments : List Nat
deriving Repr, DecidableEq

/-- `unpack_column_names`: strip the first byte and the trailing two
bytes, split on `0xFF`, decode each name. -/
def unpackColumnNames (names : List Nat) : List String :=
  (((names.drop 1).dropLast.dropLast).splitOn 255).map bytesToStr

/-- `unpack_column_labels`: strip the last byte, split on `0x00` into
groups; per group strip the first and last byte and split on `0xFF`. -/
def unpackColumnLabels (labels : List Nat) : List (List String) :=
  (labels.dropLast.splitOn 0).map
    (fun group => (((group.drop 1).dropLast).splitOn 255).map bytesToStr)

/-- Label resolution for `ENUM`/`SET` columns: the on-disk `label_id`
starts at 1, so the code indexes `labels[label_id - 1]` with Python
indexing semantics (a byte of 0 yields index `-1`). -/
def resolveLabels (labels : List (List String)) (labelByte : Nat) : Option (List String) :=
  pyGet labels ((labelByte : Int) - 1)

/-- One iteration of the `unpack_columns` loop: read the 17-byte
metadata record at the cursor, resolve labels/charset/subtype, decode
the default within a scoped offset on the defaults reader, read the
comment bytes, and advance the metadata cursor by 17. -/
def unpackOneColumn (C : FrmCollab) (table : Table) (labels : List (List String))
    (nullMap : List Nat) (name : String) (fieldnr : Nat)
    (meta defaults comments : ByteReader) (nullBit : Nat) :
    Option (Column × ByteReader × ByteReader × Nat) := do
  let length ← meta.uint16At 3 true
  let flags ← meta.uint16At 8 true
  let unireg ← meta.uint8At 10 true
  let _ ← C.utypeName unireg
  let tcode ← meta.uint8At 13 true
  let tname ← C.mysqlTypeName tcode
  let labelsSel ←
    if tname = "ENUM" ∨ tname = "SET" then do
      let lb ← meta.uint8At 12 true
      let g ← resolveLabels labels lb
      pure (some g)
    else
      pure none
  let doffRaw ← meta.uint24At 5 true
  let clen ← meta.uint16At 15 true
  let (charsetId, subtype) ←
    if tname ≠ "GEOMETRY" then do
      let hi ← meta.uint8At 11 true
      let lo ← meta.uint8At 14 true
      pure (hi * 256 + lo, (none : Option String))
    else do
      let sc ← meta.uint8At 14 true
      let gname ← C.geometryTypeName sc
      pure (63, some gname)
  let meta1 := meta.skip 17
  let charset ← C.lookupCharset charsetId
  let ctx : ColumnContext :=
    { table := table, null_map := nullMap, null_bit := nullBit, name := name
      fieldnr := fieldnr, length := length, flags := flags, unireg_check := unireg
      type_code := tcode, type_code_name := tname, labels := labelsSel
      subtype_code := subtype, charset := charset }
  let doff ← if doffRaw = 0 then (none : Option Nat) else some (doffRaw - 1)
  let (dflt, nullBit1) ← C.unpackDefault { defaults with pos := doff } ctx
  let (cmt, comments1) ← comments.read clen
  let tn ← C.formatType ctx
  pure
    ({ name := name, type_code := tcode, type_name := tn, length := length
       attributes := (), default := dflt, comment := cmt, charset := charset },
     meta1, comments1, nullBit1)

/-- The `unpack_columns` loop over the decoded column names. -/
def unpackColumnsGo (C : FrmCollab) (table : Table) (labels : List (List String))
    (nullMap : List Nat) :
    List String → Nat → ByteReader → ByteReader → ByteReader → Nat →
      Option (List Column)
  | [], _, _, _, _, _ => some []
  | name :: rest, fieldnr, meta, defaults, comments, nullBit => do
    let (col, meta1, comments1, nullBit1) ←
      unpackOneColumn C table labels nullMap name fieldnr meta defaults comments nullBit
    let cols ← unpackColumnsGo C table labels nullMap rest (fieldnr + 1) meta1 defaults comments1 nullBit1
    pure (col :: cols)

/-- `unpack_columns`: decode names and labels, read the null bitmap
from the head of the defaults section, and unpack one column per name. -/
def unpackColumns (C : FrmCollab) (pcd : PackedColumnData) (table : Table) :
    Option (List Column) := do
  let names := unpackColumnNames pcd.names
  let labels := unpackColumnLabels pcd.labels
  let meta : ByteReader := ⟨pcd.metadata, 0⟩
  let defaults0 : ByteReader := ⟨pcd.defaults, 0⟩
  let comments : ByteReader := ⟨pcd.comments, 0⟩
  let (nullMap, defaults) ← defaults0.read ((pcd.null_count + 1 + 7) / 8)
  unpackColumnsGo C table labels nullMap names 0 meta defaults comments 1

/-! ## FRM parsing (`binaryfrm.py`, `parse`) -/

/-- The section offsets and lengths computed by `parse` from the fixed
header and forminfo fields. -/
structure FrmLayout where
  keyinfo_offset : Nat
  keyinfo_length : Nat
  defaults_offset : Nat
  defaults_length : Nat
  extrainfo_offset : Nat
  extrainfo_length : Nat
  forminfo_offset : Nat
  screens_length : Nat
  null_fields : Nat
  column_count : Nat
  names_length : Nat
  labels_length : Nat
  comments_length : Nat
deriving Repr, DecidableEq

/-- Header and forminfo field extraction of `parse`: magic check,
keyinfo/defaults/extrainfo section offsets and lengths, forminfo
offset, and the column counts and sublengths at forminfo-relative
offsets. -/
def sectionLayout (bytes : List Nat) : Option FrmLayout := do
  let r0 : ByteReader := ⟨bytes, 0⟩
  let (magic, r) ← r0.read 2
  if magic ≠ [0xfe, 0x01] then none
  else do
    let _vid ← r.uint32At 0x33
    let keyinfo_offset ← r.uint16At 0x06
    let kl0 ← r.uint16At 0x0e
    let keyinfo_length ← if kl0 = 0xffff then r.uint32At 0x2f else pure kl0
    let defaults_offset := keyinfo_offset + keyinfo_length
    let defaults_length ← r.uint16At 0x10
    let _ ← r.readAt defaults_length defaults_offset
    let extrainfo_offset := defaults_offset + defaults_length
    let extrainfo_length ← r.uint32At 0x37
    let names_length_raw ← r.uint16At 0x04
    let forminfo_offset ← r.uint32At (64 + names_length_raw)
    let screens_length ← r.uint16At (forminfo_offset + 260)
    let null_fields ← r.uint16At (forminfo_offset + 282)
    let column_count ← r.uint16At (forminfo_offset + 258)
    let names_length ← r.uint16At (forminfo_offset + 268)
    let labels_length ← r.uint16At (forminfo_offset + 274)
    let comments_length ← r.uint16At (forminfo_offset + 284)
    pure
      { keyinfo_offset := keyinfo_offset
        keyinfo_length := keyinfo_length
        defaults_offset := defaults_offset
        defaults_length := defaults_length
        extrainfo_offset := extrainfo_offset
        extrainfo_length := extrainfo_length
        forminfo_offset := forminfo_offset
        screens_length := screens_length
        null_fields := null_fields
        column_count := column_count
        names_length := names_length
        labels_length := labels_length
        comments_length := comments_length }

/-- The scoped sequential reads of the column sub-sections starting at
`forminfo_offset + 288 + screens_length`, plus the defaults slice. -/
def packedColumnData (bytes : List Nat) (L : FrmLayout) : Option PackedColumnData := do
  let r0 : ByteReader := ⟨bytes, L.forminfo_offset + 288 + L.screens_length⟩
  let (metadata, r1) ← r0.read (17 * L.column_count)
  let (names, r2) ← r1.read L.names_length
  let (labels, r3) ← r2.read L.labels_length
  let (comments, _) ← r3.read L.comments_length
  let defaults ← ByteReader.readAt ⟨bytes, 0⟩ L.defaults_length L.defaults_offset
  pure
    { count := L.column_count
      null_count := L.null_fields
      names := names
      labels := labels
      metadata := metadata
      defaults := defaults
      comments := comments }

/-- The table-comment resolution step of `parse`: short comments are
stored in forminfo (`u8` length at `forminfo_offset + 46`, bytes from
`forminfo_offset + 47`); a length byte of `0xFF` defers to the next
16-bit-length-prefixed string of the extrainfo reader. -/
def parseCommentBytes (L : FrmLayout) (bytes : List Nat) (extra : ByteReader) :
    Option (List Nat × ByteReader) := do
  let tclen ← ByteReader.uint8At ⟨bytes, 2⟩ (L.forminfo_offset + 46)
  if tclen ≠ 0xff then do
    let b ← ByteReader.readAt ⟨bytes, 2⟩ tclen (L.forminfo_offset + 47)
    pure (b, extra)
  else
    extra.bytesPrefix16

/-- The comment attachment step of `parse`: a truthy comment byte
string is decoded with the table's charset and stored in the options. -/
def applyComment (C : FrmCollab) (table0 : Table) (cb : List Nat) : Option Table :=
  if cb ≠ [] then do
    let txt ← C.decodeText table0.charset.name cb
    pure { table0 with options := { table0.options with comment := some txt } }
  else
    pure table0

/-- `parse(path)`: slice the sections, build the draft table, unpack
columns and keys, then resolve the table comment (short comment from
forminfo, else the next length-prefixed string of the extrainfo
reader) and decode it with the table's charset. -/
def parse (C : FrmCollab) (path : String) (bytes : List Nat) : Option Table := do
  let L ← sectionLayout bytes
  let pcd ← packedColumnData bytes L
  let r : ByteReader := ⟨bytes, 2⟩
  let keyinfo ← r.readAt L.keyinfo_length L.keyinfo_offset
  let extrabytes ← r.readAt L.extrainfo_length L.extrainfo_offset
  let (table0, extrainfo1) ← Table.fromData C r ⟨extrabytes, 0⟩ path
  let columns ← unpackColumns C pcd table0
  let indexes ← C.unpackKeys keyinfo
  let (commentBytes, _) ← parseCommentBytes L bytes extrainfo1
  let table1 ← applyComment C table0 commentBytes
  pure { table1 with columns := columns, keys := indexes }

/-! ## Spec-side definitions for individual FRM claims -/

/-- Canonical encoding of a list of column names as the on-disk names
section: lead byte, names joined by `0xFF`, trailing `0xFF 0x00`. -/
def encodeColumnNames (ns : List (List Nat)) : List Nat :=
  255 :: List.intercalate [255] ns ++ [255, 0]

/-- The claim's engine resolution amended by the counterexample: an
absent *or empty* extrainfo engine string picks the legacy type at
`0x03`; a string equal to `"partition"` picks `0x3d`; any other string
is used as-is. -/
def specEngineAmended (C : FrmCollab) (data : ByteReader) (engine0 : Option String) :
    Option String :=
  match engine0 with
  | none => (data.uint8At 0x03).bind C.legacyDBTypeName
  | some e =>
    if e = "" then (data.uint8At 0x03).bind C.legacyDBTypeName
    else if e = "partition" then (data.uint8At 0x3d).bind C.legacyDBTypeName
    else some e

/-- The claim's engine resolution exactly as stated: an *absent*
extrainfo engine string picks the legacy type at `0x03`; a string equal
to `"partition"` picks `0x3d`; any other string (including the empty
one) is used as-is. -/
def specEngineClaim (C : FrmCollab) (data : ByteReader) (engine0 : Option String) :
    Option String :=
  match engine0 with
  | none => (data.uint8At 0x03).bind C.legacyDBTypeName
  | some e =>
    if e = "partition" then (data.uint8At 0x3d).bind C.legacyDBTypeName else some e

/-- Spec-side table comment resolution, following the claim's wording:
read the length byte at `forminfo_offset + 46`; if it is not `0xFF` the
comment is that many bytes from `forminfo_offset + 47`, otherwise it is
the next 16-bit-length-prefixed string of the extrainfo reader
positioned after the three prefixed strings and the skipped 2 bytes. -/
def specCommentBytes (bytes : List Nat) : Option (List Nat) := do
  let L ← sectionLayout bytes
  let r : ByteReader := ⟨bytes, 0⟩
  let tclen ← r.uint8At (L.forminfo_offset + 46)
  if tclen ≠ 0xff then
    r.readAt tclen (L.forminfo_offset + 47)
  else do
    let eb ← r.readAt L.extrainfo_length L.extrainfo_offset
    let e0 : ByteReader := ⟨eb, 0⟩
    let (_, e1) ← e0.bytesPrefix16
    let (_, e2) ← e1.bytesPrefix16
    let (_, e3) ← e2.bytesPrefix32
    let (c, _) ← (e3.skip 2).bytesPrefix16
    pure c

/-! ## Dump splitter (`mysqldumpsplit/__init__.py`) -/

/-- `cmd_to_ext`: output extension picked from the first word of the
filter command. -/
def cmdToExt (cmd : String) : String :=
  let name := (pySplit cmd " ").headD ""
  if name = "gzip" then ".gz"
  else if name = "pigz" then ".gz"
  else if name = "bzip2" then ".bz2"
  else if name = "pbzip2" then ".bz2"
  else if name = "lzop" then ".lzo"
  else if name = "xz" then ".xz"
  else if name = "lzma" then ".lzma"
  else ""

/-- Modelled from the spec: `parser.extract_identifier` (the
`mysqldumpsplit.parser` module is not in the source files) parses a
trailing backquoted identifier from a marker line by finding the last
pair of backticks. -/
def extractIdentifier (line : String) : Option String :=
  let parts := pySplit line "`"
  if parts.length ≥ 3 then (parts.dropLast).getLast? else none

/-- A `(section_type, lines)` event produced by the dump tokenizer
(the tokenizer itself is the `parser` collaborator). -/
structure DumpSection where
  kind : String
  lines : List String
deriving Repr, DecidableEq

/-- Observable effects of the splitter driver: file writes through the
filter command (path already carries the extension), bare truncations
(`open(name, 'wb').close()`), and warnings. -/
inductive Eff where
  | write (path : String) (mode : String) (content : String) : Eff
  | truncate (path : String) : Eff
  | warn (msg : String) : Eff
deriving Repr, DecidableEq

/-- Driver-scoped mutable state of `split_mysqldump`: current database,
captured header bytes, the pending deferred ALTER (`post_data`), and
the three counters.  `post_data` is a single optional slot, so at most
one deferred statement can ever be pending. -/
structure SplitState where
  db : Option String
  header : Option String
  postData : Option String
  tableCount : Nat
  databaseCount : Nat
  viewCount : Nat
deriving Repr, DecidableEq

/-- Initial driver state (`header = None`, `post_data = None`,
all counters zero; `db` is not yet bound). -/
def initSplitState : SplitState :=
  { db := none, header := none, postData := none
    tableCount := 0, databaseCount := 0, viewCount := 0 }

/-- Splitter configuration after target resolution. -/
structure SplitConfig where
  directory : String
  cmd : String
  deferIndexes : Bool
  deferConstraints : Bool

/-- Collaborators of the splitter driver that live outside the source
files: `defer.extract_create_table`, `defer.split_indexes` and the
compiled `name_regex` search. -/
structure SplitCollab where
  extractCreateTable : String → String
  splitIndexes : String → Bool → Option String × String
  nameFilter : String → Bool

/-- Path join (`os.path.join` on relative components). -/
def pjoin (a b : String) : String := a ++ "/" ++ b

/-- The `output()` helper: write `content` to `name + ext` through the
filter command in the given mode. -/
def outputEff (cmd name content mode : String) : Eff :=
  Eff.write (name ++ cmdToExt cmd) mode content

/-- Scan of the captured header for `Database: (?P<schema>.*)$`
(multiline): the first line containing the marker yields the remainder
of that line. -/
def findHeaderDatabase (lines : List String) : Option String :=
  lines.findSome? fun l =>
    match pySplit l "Database: " with
    | [] => none
    | [_] => none
    | _ :: rest =>
      let captured := (pySplit (String.intercalate "Database: " rest) "\n").headD ""
      if captured ≠ "" then some captured else none

/-- The separator comment block injected before a deferred ALTER
(`"\n".join([...])` in the source). -/
def postDataHeader : String :=
  String.intercalate "\n" ["", "--", "-- InnoDB Fast Index Creation (generated by dbsake)", "--", "", ""]

/-- The two view section kinds, routed to `views.sql`. -/
def isViewKind (k : String) : Bool :=
  k = "view_temporary_definition" || k = "view_definition"

/-- The `replication_info` branch of the section loop. -/
def stepRepl (cfg : SplitConfig) (st : SplitState) (s : DumpSection) :
    Option (SplitState × List Eff) := do
  let hdr ← st.header
  let name := pjoin cfg.directory "replication_info.sql"
  pure (st, [outputEff cfg.cmd name (hdr ++ String.join s.lines) "wb"])

/-- The `schema` branch of the section loop. -/
def stepSchema (cfg : SplitConfig) (st : SplitState) (s : DumpSection) :
    Option (SplitState × List Eff) := do
  let line1 ← s.lines.get? 1
  let db ← extractIdentifier line1
  let hdr ← st.header
  let name := pjoin (pjoin cfg.directory db) "create.sql"
  pure ({ st with db := some db, databaseCount := st.databaseCount + 1 },
    [outputEff cfg.cmd name (hdr ++ String.join s.lines) "wb"])

/-- The `schema_routines` branch of the section loop. -/
def stepRoutines (cfg : SplitConfig) (st : SplitState) (s : DumpSection) :
    Option (SplitState × List Eff) := do
  let db ← st.db
  let hdr ← st.header
  let name := pjoin (pjoin cfg.directory db) "routines.sql"
  pure (st, [outputEff cfg.cmd name (hdr ++ String.join s.lines) "wb"])

/-- The `schema_events` branch of the section loop. -/
def stepEvents (cfg : SplitConfig) (st : SplitState) (s : DumpSection) :
    Option (SplitState × List Eff) := do
  let db ← st.db
  let hdr ← st.header
  let name := pjoin (pjoin cfg.directory db) "events.sql"
  pure (st, [outputEff cfg.cmd name (hdr ++ String.join s.lines) "wb"])

/-- The `table_definition` branch: extract the table name, optionally
rewrite the DDL and stash the deferred ALTER in `post_data`, and write
the (possibly rewritten) section when the name regex matches. -/
def stepTableDef (cfg : SplitConfig) (col : SplitCollab) (st : SplitState)
    (s : DumpSection) : Option (SplitState × List Eff) := do
  let line1 ← s.lines.get? 1
  let table ← extractIdentifier line1
  let db ← st.db
  let name := pjoin (pjoin cfg.directory db) (table ++ ".schema.sql")
  let tdd0 := String.join s.lines
  let ddl := col.extractCreateTable tdd0
  let (tdd, postData) :=
    if cfg.deferIndexes ∧ strContainsB ddl "ENGINE=InnoDB" then
      let p := col.splitIndexes ddl cfg.deferConstraints
      if optStrTruthy p.1 then
        (pyReplace tdd0 ddl p.2, p.1)
      else (tdd0, st.postData)
    else (tdd0, st.postData)
  if col.nameFilter name then do
    let hdr ← st.header
    pure ({ st with postData := postData, tableCount := st.tableCount + 1 },
      [outputEff cfg.cmd name (hdr ++ tdd) "wb"])
  else
    pure ({ st with postData := postData }, [])

/-- The `table_data` branch: recover the table name from the first
three comment lines, inject a pending ALTER (regardless of the table
name) and clear it, and write when the name regex matches. -/
def stepTableData (cfg : SplitConfig) (col : SplitCollab) (st : SplitState)
    (s : DumpSection) : Option (SplitState × List Eff) := do
  if s.lines.length < 3 then none
  else do
    let comments := s.lines.take 3
    let line1 ← s.lines.get? 1
    let table ← extractIdentifier line1
    let db ← st.db
    let name := pjoin (pjoin cfg.directory db) (table ++ ".data.sql")
    let rest := s.lines.drop 3
    let (tail, postData) :=
      if optStrTruthy st.postData then
        (postDataHeader ++ st.postData.getD "" ++ "\n", (none : Option String))
      else ("", st.postData)
    if col.nameFilter name then do
      let hdr ← st.header
      pure ({ st with postData := postData },
        [outputEff cfg.cmd name
          (hdr ++ String.join comments ++ String.join rest ++ tail) "wb"])
    else
      pure ({ st with postData := postData }, [])

/-- The `header` branch: capture the header bytes and scan them for a
`Database:` marker. -/
def stepHeader (st : SplitState) (s : DumpSection) :
    Option (SplitState × List Eff) := do
  let hdr := String.join s.lines
  match findHeaderDatabase s.lines with
  | some db =>
    pure ({ st with
              header := some hdr
              db := some db
              databaseCount := st.databaseCount + 1 }, [])
  | none =>
    pure ({ st with header := some hdr }, [])

/-- The view-section branch: truncate `views.sql` bare-path only when
no view has been written yet in the whole run, then append. -/
def stepViews (cfg : SplitConfig) (col : SplitCollab) (st : SplitState)
    (s : DumpSection) : Option (SplitState × List Eff) := do
  let db ← st.db
  let name := pjoin (pjoin cfg.directory db) "views.sql"
  if col.nameFilter name then
    let trunc := if st.viewCount = 0 then [Eff.truncate name] else []
    pure ({ st with viewCount := st.viewCount + 1 },
      trunc ++ [outputEff cfg.cmd name (String.join s.lines) "ab"])
  else
    pure (st, [])

/-- One iteration of the `split_mysqldump` section loop.  Failures
(`None` result) are the Python crashes: indexing a too-short section,
using `db` before any database was seen, writing a `None` header, or an
unparseable marker line. -/
def step (cfg : SplitConfig) (col : SplitCollab) (st : SplitState)
    (s : DumpSection) : Option (SplitState × List Eff) :=
  if s.kind = "replication_info" then stepRepl cfg st s
  else if s.kind = "schema" then stepSchema cfg st s
  else if s.kind = "schema_routines" then stepRoutines cfg st s
  else if s.kind = "schema_events" then stepEvents cfg st s
  else if s.kind = "table_definition" then stepTableDef cfg col st s
  else if s.kind = "table_data" then stepTableData cfg col st s
  else if s.kind = "header" then stepHeader st s
  else if isViewKind s.kind then stepViews cfg col st s
  else pure (st, [])

/-- The driver loop over all tokenizer events. -/
def runSplit (cfg : SplitConfig) (col : SplitCollab) :
    SplitState → List DumpSection → Option (SplitState × List Eff)
  | st, [] => some (st, [])
  | st, s :: rest => do
    let (st1, e1) ← step cfg col st s
    let (st2, e2) ← runSplit cfg col st1 rest
    pure (st2, e1 ++ e2)

/-- Target resolution of `split_mysqldump`: `5.5` defers indexes,
`5.6`/`5.7` additionally defer constraints, anything else disables both
and logs two warnings. -/
def splitConfigOf (target : String) : Bool × Bool × List Eff :=
  if target = "5.5" then (true, false, [])
  else if target = "5.6" ∨ target = "5.7" then (true, true, [])
  else
    (false, false,
      [Eff.warn ("Unknown target version '" ++ target ++ "'"),
       Eff.warn "Indexes will not be deferred"])

/-- `split_mysqldump`: resolve the target, then run the section loop. -/
def splitMysqldump (target directory filterCommand : String) (col : SplitCollab)
    (sections : List DumpSection) : Option (SplitState × List Eff) :=
  let c := splitConfigOf target
  (runSplit { directory := directory, cmd := filterCommand,
              deferIndexes := c.1, deferConstraints := c.2.1 } col
      initSplitState sections).map
    (fun p => (p.1, c.2.2 ++ p.2))

/-! ## Concrete sample inputs used by witnesses and counterexamples -/

/-- Content of the only write recorded for a given path. -/
def writeContent (effs : List Eff) (p : String) : Option String :=
  effs.findSome? fun e =>
    match e with
    | Eff.write q _ c => if q = p then some c else none
    | _ => none

/-- Mode of the first write recorded for a given path. -/
def writeMode (effs : List Eff) (p : String) : Option String :=
  effs.findSome? fun e =>
    match e with
    | Eff.write q m _ => if q = p then some m else none
    | _ => none

/-- Paths of all truncate effects of a run. -/
def truncPaths (effs : List Eff) : List String :=
  effs.filterMap fun e =>
    match e with
    | Eff.truncate p => some p
    | _ => none

/-- Count of view-section append writes in an effect list. -/
def countAppendWrites (effs : List Eff) : Nat :=
  (effs.filter fun e =>
    match e with
    | Eff.write _ m _ => m = "ab"
    | _ => false).length

/-- Sample splitter collaborators: identity `extract_create_table`, a
`split_indexes` that defers one key of table `a`, and an always-true
name filter (the default `.*` regex). -/
def sampleSplitCollab : SplitCollab :=
  { extractCreateTable := fun s => s
    splitIndexes := fun _ _ =>
      (some "ALTER TABLE `a` ADD KEY k (x);",
       "CREATE TABLE `a` (x int) ENGINE=InnoDB;\n")
    nameFilter := fun _ => true }

/-- A dump where the table definition of `a` defers an ALTER but the
next data section belongs to table `b`. -/
def c1Events : List DumpSection :=
  [⟨"header", ["-- MySQL dump 10.13\n"]⟩,
   ⟨"schema", ["--\n", "CREATE DATABASE `d`;\n"]⟩,
   ⟨"table_definition",
    ["--\n", "-- Table structure for table `a`\n", "--\n",
     "CREATE TABLE `a` (x int, KEY k (x)) ENGINE=InnoDB;\n"]⟩,
   ⟨"table_data",
    ["--\n", "-- Dumping data for table `b`\n", "--\n",
     "INSERT INTO `b` VALUES (1);\n"]⟩]

/-- A dump with views in two databases. -/
def c2Events : List DumpSection :=
  [⟨"header", ["-- MySQL dump 10.13\n"]⟩,
   ⟨"schema", ["--\n", "CREATE DATABASE `d1`;\n"]⟩,
   ⟨"view_definition", ["CREATE VIEW `v1` AS SELECT 1;\n"]⟩,
   ⟨"schema", ["--\n", "CREATE DATABASE `d2`;\n"]⟩,
   ⟨"view_definition", ["CREATE VIEW `v2` AS SELECT 2;\n"]⟩]

/-- Permissive concrete FRM collaborators for closed evaluations. -/
def sampleFrmCollab : FrmCollab :=
  { lookupCharset := fun n =>
      some { id := n, name := "latin1", collation := "latin1_swedish_ci", is_default := true }
    legacyDBTypeName := fun _ => some "MyISAM"
    haRowTypeName := fun _ => some "DEFAULT"
    mysqlTypeName := fun _ => some "LONG"
    utypeName := fun _ => some "NONE"
    geometryTypeName := fun _ => some "GEOMETRY"
    haOption := fun _ =>
      { pack_keys := false, no_pack_keys := false, stats_persistent := false
        no_stats_persistent := false, checksum := false, delay_key_write := false }
    unpackDefault := fun _ ctx => some (none, ctx.null_bit)
    formatType := fun _ => some "int(11)"
    filenameToTablename := fun s => s
    unpackKeys := fun _ => some []
    decodeText := fun _ b => some (bytesToStr b) }

/-- A 64-byte FRM fixed header: magic, legacy engine 6 at `0x03`,
keyinfo at 68 (length 2), defaults length 2, charset 8 at `0x26`,
version 50505 at `0x33`, empty extrainfo, legacy partition engine 6 at
`0x3d`. -/
def sampleFrmHeader : List Nat :=
  [0xfe, 0x01, 0, 6,
   0, 0,
   68, 0,
   0, 0, 0, 0, 0, 0,
   2, 0,
   2, 0,
   0, 0, 0, 0,
   0, 0, 0, 0,
   0, 0, 0, 0,
   0, 0,
   0, 0,
   0, 0, 0, 0,
   8, 0, 0,
   0, 0, 0, 0, 0, 0,
   0, 0, 0, 0,
   73, 197, 0, 0,
   0, 0, 0, 0,
   0, 0,
   6,
   0, 0]

/-- A 288-byte forminfo block: one column, a 4-byte names section, no
labels, comments, screens or table comment. -/
def sampleForminfo : List Nat :=
  List.replicate 258 0 ++ [1, 0] ++ [0, 0] ++ List.replicate 6 0 ++ [4, 0]
    ++ List.replicate 4 0 ++ [0, 0] ++ List.replicate 6 0 ++ [0, 0] ++ [0, 0]
    ++ List.replicate 2 0

/-- The same forminfo with a 3-byte short table comment `abc` stored at
forminfo-relative offsets 46..49. -/
def sampleForminfo2 : List Nat :=
  List.replicate 46 0 ++ [3, 97, 98, 99] ++ List.replicate 208 0
    ++ [1, 0] ++ [0, 0] ++ List.replicate 6 0 ++ [4, 0]
    ++ List.replicate 4 0 ++ [0, 0] ++ List.replicate 6 0 ++ [0, 0] ++ [0, 0]
    ++ List.replicate 2 0

/-- The 17-byte column metadata record of the sample file: length 11,
defaults offset 1, type code 3, charset low byte 8. -/
def sampleMetadata : List Nat :=
  [0, 0, 0, 11, 0, 1, 0, 0, 0, 0, 0, 0, 0, 3, 8, 0, 0]

/-- A complete well-formed sample `.frm` byte buffer with one column
named `a`. -/
def sampleFrm : List Nat :=
  sampleFrmHeader ++ [72, 0, 0, 0] ++ [0, 0] ++ [0, 0] ++ sampleForminfo
    ++ sampleMetadata ++ [255, 97, 255, 0]

/-- The sample `.frm` with a table comment `abc`. -/
def sampleFrm2 : List Nat :=
  sampleFrmHeader ++ [72, 0, 0, 0] ++ [0, 0] ++ [0, 0] ++ sampleForminfo2
    ++ sampleMetadata ++ [255, 97, 255, 0]

/-- A 10-byte extrainfo buffer whose three prefixed strings are all
empty: connection `""`, engine `""`, partition info `""`, then the
2-byte trailer. -/
def emptyStringsExtra : ByteReader := ⟨List.replicate 10 0, 0⟩

/-- The section layout of `sampleFrm` as computed by `sectionLayout`. -/
def sampleLayout : FrmLayout :=
  { keyinfo_offset := 68, keyinfo_length := 2, defaults_offset := 70
    defaults_length := 2, extrainfo_offset := 72, extrainfo_length := 0
    forminfo_offset := 72, screens_length := 0, null_fields := 0
    column_count := 1, names_length := 4, labels_length := 0, comments_length := 0 }

/-- The packed column data of `sampleFrm`. -/
def samplePcd : PackedColumnData :=
  { count := 1, null_count := 0, names := [255, 97, 255, 0], labels := []
    metadata := sampleMetadata, defaults := [0, 0], comments := [] }

/-- Sample table options with zero numeric fields and explicit
`pack_keys = 0` / `stats_persistent = 0`. -/
def sampleOptions : TableOptions :=
  { connection := none, engine := some "InnoDB"
    charset := some { id := 8, name := "latin1", collation := "latin1_swedish_ci", is_default := true }
    min_rows := 0, max_rows := 0, avg_row_length := 0, pack_keys := some 0
    delay_key_write := true, checksum := true, row_format := "DEFAULT", key_block_size := 0
    stats_persistent := some 0, comment := none, partitions := none }

/-- Handler-option flags with the NO_PACK_KEYS and NO_STATS_PERSISTENT
bits set. -/
def sampleFlags : HaOptionFlags :=
  { pack_keys := false, no_pack_keys := true, stats_persistent := false
    no_stats_persistent := true, checksum := true, delay_key_write := true }

/-- A concrete splitter configuration with index deferral on. -/
def cfg1 : SplitConfig :=
  { directory := "out", cmd := "cat", deferIndexes := true, deferConstraints := false }

/-- A driver state holding a pending deferred ALTER for table `a`. -/
def stPending : SplitState :=
  { db := some "d", header := some "-- header\n"
    postData := some "ALTER TABLE `a` ADD KEY k (x);"
    tableCount := 1, databaseCount := 1, viewCount := 0 }

/-- A `table_data` section for table `b`. -/
def dataSectionB : DumpSection :=
  ⟨"table_data",
   ["--\n", "-- Dumping data for table `b`\n", "--\n", "INSERT INTO `b` VALUES (1);\n"]⟩

/-- A view definition section. -/
def viewSectionSample : DumpSection :=
  ⟨"view_definition", ["CREATE VIEW `v` AS SELECT 1;\n"]⟩

/-! ## Theorems -/

set_option maxRecDepth 8000

theorem digitChar_isDigit : ∀ m, m < 10 → (Nat.digitChar m).isDigit = true := by
  decide

theorem decDigitsAux_isDigit : ∀ fuel n, ∀ c ∈ decDigitsAux fuel n, c.isDigit = true := by
  intro fuel
  induction fuel with
  | zero => intro n c hc; simp [decDigitsAux] at hc
  | succ f ih =>
    intro n c hc
    rw [decDigitsAux] at hc
    split at hc
    · next h =>
      simp only [List.mem_singleton] at hc
      subst hc
      exact digitChar_isDigit n h
    · next h =>
      simp only [List.mem_append, List.mem_singleton] at hc
      rcases hc with hc | hc
      · exact ih _ c hc
      · subst hc
        exact digitChar_isDigit _ (Nat.mod_lt _ (by norm_num))

theorem decDigits_isDigit (n : Nat) : ∀ c ∈ decDigits n, c.isDigit = true :=
  decDigitsAux_isDigit (n + 1) n

theorem decDigits_ne_nil (n : Nat) : decDigits n ≠ [] := by
  unfold decDigits
  rw [decDigitsAux]
  split
  · simp
  · simp

theorem dotted_ne_legacy (a b c : Nat) :
    decRepr a ++ "." ++ decRepr b ++ "." ++ decRepr c ≠ "< 5.0" := by
  intro h
  have hd : decDigits a ++ ['.'] ++ decDigits b ++ ['.'] ++ decDigits c =
      ['<', ' ', '5', '.', '0'] := congrArg String.data h
  cases hA : decDigits a with
  | nil => exact decDigits_ne_nil a hA
  | cons c0 cs =>
    rw [hA] at hd
    simp only [List.cons_append, List.append_assoc] at hd
    injection hd with h1 _
    have hdig := decDigits_isDigit a c0 (hA ▸ List.mem_cons_self c0 cs)
    rw [h1] at hdig
    exact absurd hdig (by decide)

/-- C7: `MySQLVersion` is derived from the 32-bit version id `v` as
`major = v/10000`, `minor = (v%1000)/100`, `release = v%100`, renders
as dotted `major.minor.release`, and renders as `"< 5.0"` exactly when
major, minor and release are all zero. -/
theorem c7_mysql_version : ∀ v : Nat,
    MySQLVersion.fromVersionId v =
      { major := v / 10000, minor := v % 1000 / 100, release := v % 100 } ∧
    ∀ a b c : Nat,
      (MySQLVersion.str ⟨a, b, c⟩ = "< 5.0" ↔ a = 0 ∧ b = 0 ∧ c = 0) ∧
      MySQLVersion.str ⟨a, b, c⟩ =
        (if a = 0 ∧ b = 0 ∧ c = 0 then "< 5.0"
         else decRepr a ++ "." ++ decRepr b ++ "." ++ decRepr c) := by
  intro v
  refine ⟨rfl, fun a b c => ?_⟩
  unfold MySQLVersion.str
  constructor
  · split
    · next heq =>
      simp only [MySQLVersion.mk.injEq] at heq
      simp [heq]
    · next hne =>
      simp only [MySQLVersion.mk.injEq] at hne
      exact ⟨fun h => absurd h (dotted_ne_legacy a b c), fun h => absurd h hne⟩
  · split
    · next heq =>
      simp only [MySQLVersion.mk.injEq] at heq
      simp [heq]
    · next hne =>
      simp only [MySQLVersion.mk.injEq] at hne
      simp [hne]

theorem attributes_eq_spec (o : TableOptions) : o.attributes = specAttributes o := by
  unfold TableOptions.attributes specAttributes connectionAttr engineAttr charsetAttr
    minRowsAttr maxRowsAttr avgRowLengthAttr packKeysAttr statsPersistentAttr
    checksumAttr delayKeyWriteAttr rowFormatAttr keyBlockSizeAttr commentAttr
    partitionsAttr
  rcases o.charset with _ | ⟨cid, cname, ccoll, cdef⟩
  · rfl
  · cases cdef <;> rfl

/-- C5: the rendered options tail lists attributes in exactly the order
connection, engine, charset (with a COLLATE clause exactly when the
charset is not the default collation), min_rows, max_rows,
avg_row_length, pack_keys, stats_persistent, checksum, delay_key_write,
row_format (omitted when DEFAULT), key_block_size, comment, partitions,
each appearing only when its value is set. -/
theorem c5_rendering_order : ∀ o : TableOptions, o.attributes = specAttributes o :=
  attributes_eq_spec

/-- C9: zero-valued min_rows, max_rows, avg_row_length and
key_block_size are omitted entirely from the rendered tail, whereas
`pack_keys = 0` and `stats_persistent = 0` (decoded from the
NO_PACK_KEYS / NO_STATS_PERSISTENT bits) still render as `PACK_KEYS=0`
/ `STATS_PERSISTENT=0`, and checksum / delay_key_write render only when
true and only as `CHECKSUM=1` / `DELAY_KEY_WRITE=1`. -/
theorem c9_zero_option_values (o : TableOptions) (flags : HaOptionFlags) :
    (o.min_rows = 0 → minRowsAttr o = []) ∧
    (o.max_rows = 0 → maxRowsAttr o = []) ∧
    (o.avg_row_length = 0 → avgRowLengthAttr o = []) ∧
    (o.key_block_size = 0 → keyBlockSizeAttr o = []) ∧
    (o.pack_keys = some 0 → packKeysAttr o = ["PACK_KEYS=0"]) ∧
    (o.stats_persistent = some 0 → statsPersistentAttr o = ["STATS_PERSISTENT=0"]) ∧
    (flags.no_pack_keys = true → flags.pack_keys = false → packKeysOf flags = some 0) ∧
    (flags.no_stats_persistent = true → flags.stats_persistent = false →
      statsPersistentOf flags = some 0) ∧
    checksumAttr o = (if o.checksum then ["CHECKSUM=1"] else []) ∧
    delayKeyWriteAttr o = (if o.delay_key_write then ["DELAY_KEY_WRITE=1"] else []) ∧
    o.attributes = connectionAttr o ++ engineAttr o ++ charsetAttr o ++ minRowsAttr o ++
      maxRowsAttr o ++ avgRowLengthAttr o ++ packKeysAttr o ++ statsPersistentAttr o ++
      checksumAttr o ++ delayKeyWriteAttr o ++ rowFormatAttr o ++ keyBlockSizeAttr o ++
      commentAttr o ++ partitionsAttr o := by
  refine ⟨?_, ?_, ?_, ?_, ?_, ?_, ?_, ?_, rfl, rfl, attributes_eq_spec o⟩
  · intro h; simp [minRowsAttr, h]
  · intro h; simp [maxRowsAttr, h]
  · intro h; simp [avgRowLengthAttr, h]
  · intro h; simp [keyBlockSizeAttr, h]
  · intro h; simp [packKeysAttr, h]; rfl
  · intro h; simp [statsPersistentAttr, h]; rfl
  · intro h1 h2; simp [packKeysOf, h1, h2]
  · intro h1 h2; simp [statsPersistentOf, h1, h2]

/-- Witness for C9 at concrete options and flags. -/
theorem c9_zero_option_values_witness :
    minRowsAttr sampleOptions = [] ∧ keyBlockSizeAttr sampleOptions = [] ∧
    packKeysAttr sampleOptions = ["PACK_KEYS=0"] ∧
    statsPersistentAttr sampleOptions = ["STATS_PERSISTENT=0"] ∧
    packKeysOf sampleFlags = some 0 ∧ statsPersistentOf sampleFlags = some 0 := by
  obtain ⟨h1, _, _, h4, h5, h6, h7, h8, _⟩ := c9_zero_option_values sampleOptions sampleFlags
  exact ⟨h1 rfl, h4 rfl, h5 rfl, h6 rfl, h7 rfl rfl, h8 rfl rfl⟩

/-- C10: a `label_id` byte of 0 resolves to Python index `-1`, which
selects the last label group of the decoded label list (which is never
empty) instead of failing out of bounds. -/
theorem c10_enum_label_zero : ∀ labelBytes : List Nat,
    resolveLabels (unpackColumnLabels labelBytes) 0 =
      (unpackColumnLabels labelBytes).getLast? ∧
    (resolveLabels (unpackColumnLabels labelBytes) 0).isSome = true := by
  intro bs
  have hne : unpackColumnLabels bs ≠ [] := by
    unfold unpackColumnLabels
    simp only [ne_eq, List.map_eq_nil_iff, List.splitOn]
    exact List.splitOnP_ne_nil _ _
  have hlen : 1 ≤ (unpackColumnLabels bs).length := List.length_pos.mpr hne
  have htn : (((unpackColumnLabels bs).length : Int) + ((0 : Nat) - 1 : Int)).toNat =
      (unpackColumnLabels bs).length - 1 := by omega
  have hmain : resolveLabels (unpackColumnLabels bs) 0 =
      (unpackColumnLabels bs).getLast? := by
    unfold resolveLabels pyGet
    rw [if_neg (by omega), if_pos (by omega), htn, List.get?_eq_getElem?,
      ← List.getLast?_eq_getElem?]
  refine ⟨hmain, ?_⟩
  rw [hmain]
  exact List.getLast?_isSome.mpr hne

/-- C8: `defer_indexes` is true exactly for targets `5.5`, `5.6` and
`5.7`; `defer_constraints` additionally exactly for `5.6` and `5.7`;
any other target produces warning events, and the run proceeds with
both deferrals disabled (the unknown target is non-fatal). -/
theorem c8_defer_flags : ∀ target : String,
    ((splitConfigOf target).1 = true ↔ (target = "5.5" ∨ target = "5.6" ∨ target = "5.7")) ∧
    ((splitConfigOf target).2.1 = true ↔ (target = "5.6" ∨ target = "5.7")) ∧
    ((splitConfigOf target).2.2 = [] ↔ (target = "5.5" ∨ target = "5.6" ∨ target = "5.7")) ∧
    ∀ directory cmd col sections,
      splitMysqldump target directory cmd col sections =
        (runSplit { directory := directory, cmd := cmd
                    deferIndexes := (splitConfigOf target).1
                    deferConstraints := (splitConfigOf target).2.1 } col initSplitState sections).map
          (fun p => (p.1, (splitConfigOf target).2.2 ++ p.2)) := by
  intro t
  refine ⟨?_, ?_, ?_, fun directory cmd col sections => rfl⟩ <;>
    (by_cases h1 : t = "5.5" <;> by_cases h2 : t = "5.6" <;> by_cases h3 : t = "5.7" <;>
      simp_all [splitConfigOf])

/-- C1 counterexample: a run in which the table definition of `a`
defers an ALTER and the next `table_data` section belongs to table `b`
(`"a" ≠ "b"`): the pending ALTER is nevertheless consumed there — it is
cleared and its text is injected into `b`'s data file. -/
theorem c1_counterexample :
    extractIdentifier "-- Table structure for table `a`\n" = some "a" ∧
    extractIdentifier "-- Dumping data for table `b`\n" = some "b" ∧
    ("a" : String) ≠ "b" ∧
    (splitMysqldump "5.5" "out" "cat" sampleSplitCollab (c1Events.take 3)).map
        (fun p => p.1.postData) = some (some "ALTER TABLE `a` ADD KEY k (x);") ∧
    (splitMysqldump "5.5" "out" "cat" sampleSplitCollab c1Events).map
        (fun p => p.1.postData) = some none ∧
    (splitMysqldump "5.5" "out" "cat" sampleSplitCollab c1Events).map
        (fun p => (writeContent p.2 "out/d/b.data.sql").map
          (fun c => strContainsB c "ALTER TABLE `a` ADD KEY k (x);")) = some (some true) := by
  exact ⟨rfl, rfl, by decide, rfl, rfl, rfl⟩

/-- C2 counterexample: a run with views in two databases truncates only
`d1`'s `views.sql`; `d2`'s `views.sql` receives its first write of that
path in append mode with no truncation, because the truncation is
guarded by the global `view_count`. -/
theorem c2_counterexample :
    (splitMysqldump "5.5" "out" "cat" sampleSplitCollab c2Events).map
        (fun p => truncPaths p.2) = some ["out/d1/views.sql"] ∧
    (splitMysqldump "5.5" "out" "cat" sampleSplitCollab c2Events).map
        (fun p => writeContent p.2 "out/d2/views.sql") =
      some (some "CREATE VIEW `v2` AS SELECT 2;\n") ∧
    (splitMysqldump "5.5" "out" "cat" sampleSplitCollab c2Events).map
        (fun p => writeMode p.2 "out/d2/views.sql") = some (some "ab") := by
  exact ⟨rfl, rfl, rfl⟩

/-- C4 counterexample: with a non-empty extrainfo whose engine string
is present but empty, the code (`if not engine:`) falls back to the
legacy db type (`MyISAM`), whereas the claim's third clause would use
the empty string itself. -/
theorem c4_counterexample :
    (Table.fromData sampleFrmCollab ⟨sampleFrmHeader, 2⟩ emptyStringsExtra "t").map
        (fun p => p.1.options.engine) = some (some "MyISAM") ∧
    (readExtraStrings emptyStringsExtra).map (fun q => q.2.1) = some (some "") ∧
    specEngineClaim sampleFrmCollab ⟨sampleFrmHeader, 2⟩ (some "") = some "" ∧
    (some "MyISAM" : Option String) ≠ some "" := by
  exact ⟨rfl, rfl, rfl, by decide⟩

theorem resolveEngine_eq_amended (C : FrmCollab) (data : ByteReader) (e0 : Option String) :
    resolveEngine C data e0 = specEngineAmended C data e0 := by
  unfold resolveEngine specEngineAmended optStrTruthy
  cases e0 with
  | none => simp
  | some e =>
    by_cases he : e = ""
    · simp [he]
    · by_cases hp : e = "partition" <;> simp [he, hp]

theorem fromData_inv (C : FrmCollab) (data extrainfo : ByteReader) (path : String)
    (tbl : Table) (ei : ByteReader)
    (h : Table.fromData C data extrainfo path = some (tbl, ei)) :
    ∃ conn eng part,
      readExtraStrings extrainfo = some (conn, eng, part, ei) ∧
      tbl.options.connection = conn ∧
      tbl.options.partitions = part ∧
      tbl.options.engine = resolveEngine C data eng ∧
      tbl.options.comment = none := by
  unfold Table.fromData at h
  simp only [Option.bind_eq_bind, Option.bind_eq_some, Option.pure_def,
    Option.some.injEq] at h
  obtain ⟨csId, hcs, cs, hlook, vid, hvid, mnr, hmin, mxr, hmax, avg, havg,
    rf, hrf, rfn, hrfn, kbs, hkbs, ho, hho, ⟨conn, eng, part, ei1⟩, hq, e, he, hfin⟩ := h
  injection hfin with htbl hei
  subst hei
  subst htbl
  exact ⟨conn, eng, part, hq, rfl, rfl, he.symm, rfl⟩

theorem readExtraStrings_cases (x : ByteReader) (conn eng part : Option String)
    (ei : ByteReader) (h : readExtraStrings x = some (conn, eng, part, ei)) :
    (x.size = 0 ∧ conn = none ∧ eng = none ∧ part = none ∧ ei = x) ∨
    (x.size ≠ 0 ∧ ∃ cb r1 eb r2 pb r3,
      x.bytesPrefix16 = some (cb, r1) ∧ r1.bytesPrefix16 = some (eb, r2) ∧
      r2.bytesPrefix32 = some (pb, r3) ∧ ei = r3.skip 2 ∧
      conn = some (bytesToStr cb) ∧ eng = some (bytesToStr eb) ∧
      part = some (bytesToStr pb)) := by
  unfold readExtraStrings at h
  split_ifs at h with hsz
  · right
    simp only [Option.bind_eq_bind, Option.bind_eq_some, Option.pure_def,
      Option.some.injEq] at h
    obtain ⟨⟨cb, r1⟩, h1, ⟨eb, r2⟩, h2, ⟨pb, r3⟩, h3, hfin⟩ := h
    injection hfin with hc hrest
    injection hrest with heng hrest2
    injection hrest2 with hpart hei
    exact ⟨hsz, cb, r1, eb, r2, pb, r3, h1, h2, h3, hei.symm, hc.symm, heng.symm, hpart.symm⟩
  · left
    simp only [Option.pure_def, Option.some.injEq] at h
    injection h with hc hrest
    injection hrest with heng hrest2
    injection hrest2 with hpart hei
    exact ⟨not_not.mp hsz, hc.symm, heng.symm, hpart.symm, hei.symm⟩

/-- C4 (amended): the engine option of `Table.from_data` is resolved
as: absent *or empty* extrainfo engine string → legacy type at `0x03`;
`"partition"` → legacy type at `0x3d` with the partition clause
preserved in the options; any other string is used as-is; and an empty
extrainfo leaves connection, engine string and partition info absent. -/
theorem c4_engine_resolution (C : FrmCollab) (data extrainfo : ByteReader) (path : String)
    (tbl : Table) (ei : ByteReader)
    (h : Table.fromData C data extrainfo path = some (tbl, ei)) :
    ∃ conn eng part,
      readExtraStrings extrainfo = some (conn, eng, part, ei) ∧
      tbl.options.engine = specEngineAmended C data eng ∧
      tbl.options.connection = conn ∧
      tbl.options.partitions = part ∧
      (extrainfo.size = 0 → conn = none ∧ eng = none ∧ part = none) := by
  obtain ⟨conn, eng, part, h1, h2, h3, h4, _⟩ := fromData_inv C data extrainfo path tbl ei h
  refine ⟨conn, eng, part, h1, ?_, h2, h3, ?_⟩
  · rw [h4, resolveEngine_eq_amended]
  · intro hsz
    rcases readExtraStrings_cases extrainfo conn eng part ei h1 with
      ⟨_, hc, he, hp, _⟩ | ⟨hne, _⟩
    · exact ⟨hc, he, hp⟩
    · exact absurd hsz hne

/-- Witness for C4 (amended) at a concrete header with empty
extrainfo. -/
theorem c4_engine_resolution_witness :
    (Table.fromData sampleFrmCollab ⟨sampleFrmHeader, 2⟩ ⟨[], 0⟩ "t").map
        (fun p => (p.1.options.connection, p.1.options.engine, p.1.options.partitions)) =
      some (none, some "MyISAM", none) := by
  cases h : Table.fromData sampleFrmCollab ⟨sampleFrmHeader, 2⟩ ⟨[], 0⟩ "t" with
  | none => exact absurd h (by decide)
  | some pr =>
    obtain ⟨tbl, ei⟩ := pr
    obtain ⟨conn, eng, part, h1, h2, h3, h4, h5⟩ :=
      c4_engine_resolution sampleFrmCollab ⟨sampleFrmHeader, 2⟩ ⟨[], 0⟩ "t" tbl ei h
    obtain ⟨hc, he, hp⟩ := h5 rfl
    subst hc
    subst he
    subst hp
    have h2' : tbl.options.engine = some "MyISAM" := h2
    simp [h2', h3, h4]

theorem unpackColumnsGo_length (C : FrmCollab) (table : Table)
    (labels : List (List String)) (nullMap : List Nat) :
    ∀ (names : List String) (fieldnr : Nat) (meta defaults comments : ByteReader)
      (nullBit : Nat) (cols : List Column),
      unpackColumnsGo C table labels nullMap names fieldnr meta defaults comments nullBit =
        some cols → cols.length = names.length := by
  intro names
  induction names with
  | nil =>
    intro _ _ _ _ _ cols h
    simp only [unpackColumnsGo, Option.some.injEq] at h
    simp [← h]
  | cons n rest ih =>
    intro fieldnr meta defaults comments nullBit cols h
    unfold unpackColumnsGo at h
    simp only [Option.bind_eq_bind, Option.bind_eq_some, Option.pure_def,
      Option.some.injEq] at h
    obtain ⟨⟨col, meta1, comments1, nullBit1⟩, h1, cols2, h2, hfin⟩ := h
    subst hfin
    simp [ih _ _ _ _ _ _ h2]

theorem unpackColumns_length (C : FrmCollab) (pcd : PackedColumnData) (table : Table)
    (cols : List Column) (h : unpackColumns C pcd table = some cols) :
    cols.length = (unpackColumnNames pcd.names).length := by
  unfold unpackColumns at h
  simp only [Option.bind_eq_bind, Option.bind_eq_some, Option.pure_def,
    Option.some.injEq] at h
  obtain ⟨⟨nullMap, defaults⟩, h1, h2⟩ := h
  exact unpackColumnsGo_length C table _ nullMap _ 0 _ _ _ 1 cols h2

theorem unpackColumnNames_encode (ns : List (List Nat)) (hne : ns ≠ [])
    (hfree : ∀ n ∈ ns, 255 ∉ n) :
    unpackColumnNames (encodeColumnNames ns) = ns.map bytesToStr := by
  unfold unpackColumnNames encodeColumnNames
  congr 1
  show List.splitOn 255 ((List.intercalate [255] ns ++ [255, 0]).dropLast.dropLast) = ns
  have h2 : (List.intercalate [255] ns ++ [255, 0]).dropLast.dropLast =
      List.intercalate [255] ns := by simp
  rw [h2]
  exact List.splitOn_intercalate ns 255 hfree hne

theorem parseCommentBytes_inv (L : FrmLayout) (bytes : List Nat) (extra : ByteReader)
    (cb : List Nat) (e' : ByteReader)
    (h : parseCommentBytes L bytes extra = some (cb, e')) :
    ∃ tclen, ByteReader.uint8At ⟨bytes, 2⟩ (L.forminfo_offset + 46) = some tclen ∧
      ((tclen ≠ 0xff ∧
        ByteReader.readAt ⟨bytes, 2⟩ tclen (L.forminfo_offset + 47) = some cb ∧ e' = extra) ∨
       (tclen = 0xff ∧ extra.bytesPrefix16 = some (cb, e'))) := by
  unfold parseCommentBytes at h
  simp only [Option.bind_eq_bind, Option.bind_eq_some, Option.pure_def,
    Option.some.injEq] at h
  obtain ⟨tclen, htc, hrest⟩ := h
  refine ⟨tclen, htc, ?_⟩
  split at hrest
  · next hne =>
    simp only [Option.bind_eq_bind, Option.bind_eq_some, Option.pure_def,
      Option.some.injEq] at hrest
    obtain ⟨b, hb, hfin⟩ := hrest
    injection hfin with h1 h2
    exact Or.inl ⟨hne, h1 ▸ hb, h2.symm⟩
  · next hne =>
    exact Or.inr ⟨not_not.mp hne, hrest⟩

theorem applyComment_inv (C : FrmCollab) (table0 : Table) (cb : List Nat) (t : Table)
    (h : applyComment C table0 cb = some t) :
    (cb = [] ∧ t = table0) ∨
    (cb ≠ [] ∧ ∃ txt, C.decodeText table0.charset.name cb = some txt ∧
      t = { table0 with options := { table0.options with comment := some txt } }) := by
  unfold applyComment at h
  split at h
  · next hne =>
    simp only [Option.bind_eq_bind, Option.bind_eq_some, Option.pure_def,
      Option.some.injEq] at h
    obtain ⟨txt, htxt, hfin⟩ := h
    exact Or.inr ⟨hne, txt, htxt, hfin.symm⟩
  · next hne =>
    simp only [Option.pure_def, Option.some.injEq] at h
    exact Or.inl ⟨not_not.mp hne, h.symm⟩

theorem parse_inv (C : FrmCollab) (path : String) (bytes : List Nat) (tbl : Table)
    (h : parse C path bytes = some tbl) :
    ∃ L pcd keyinfo extrab table0 extra1 columns indexes cb e1 table1,
      sectionLayout bytes = some L ∧
      packedColumnData bytes L = some pcd ∧
      ByteReader.readAt ⟨bytes, 2⟩ L.keyinfo_length L.keyinfo_offset = some keyinfo ∧
      ByteReader.readAt ⟨bytes, 2⟩ L.extrainfo_length L.extrainfo_offset = some extrab ∧
      Table.fromData C ⟨bytes, 2⟩ ⟨extrab, 0⟩ path = some (table0, extra1) ∧
      unpackColumns C pcd table0 = some columns ∧
      C.unpackKeys keyinfo = some indexes ∧
      parseCommentBytes L bytes extra1 = some (cb, e1) ∧
      applyComment C table0 cb = some table1 ∧
      tbl = { table1 with columns := columns, keys := indexes } := by
  unfold parse at h
  simp only [Option.bind_eq_bind, Option.bind_eq_some, Option.pure_def,
    Option.some.injEq] at h
  obtain ⟨L, hL, pcd, hpcd, keyinfo, hki, extrab, hex, q, hfd, columns, hcols,
    indexes, hidx, cbp, hcbp, table1, ht1, hfin⟩ := h
  obtain ⟨table0, extra1⟩ := q
  obtain ⟨cb, e1⟩ := cbp
  exact ⟨L, pcd, keyinfo, extrab, table0, extra1, columns, indexes, cb, e1, table1,
    hL, hpcd, hki, hex, hfd, hcols, hidx, hcbp, ht1, hfin.symm⟩

/-- C3: for every well-formed `.frm` buffer (names section a canonical
encoding of `count` column names), the number of columns in the table
returned by `parse` equals the `column_count` field read from the
forminfo header, which is `PackedColumnData.count`. -/
theorem c3_parse_column_count (C : FrmCollab) (path : String) (bytes : List Nat)
    (L : FrmLayout) (pcd : PackedColumnData) (ns : List (List Nat)) (tbl : Table)
    (hL : sectionLayout bytes = some L)
    (hpcd : packedColumnData bytes L = some pcd)
    (hnames : pcd.names = encodeColumnNames ns)
    (hfree : ∀ n ∈ ns, 255 ∉ n)
    (hne : ns ≠ [])
    (hcount : ns.length = pcd.count)
    (hparse : parse C path bytes = some tbl) :
    tbl.columns.length = pcd.count ∧ pcd.count = L.column_count := by
  have hcnt : pcd.count = L.column_count := by
    unfold packedColumnData at hpcd
    simp only [Option.bind_eq_bind, Option.bind_eq_some, Option.pure_def,
      Option.some.injEq] at hpcd
    obtain ⟨⟨meta, r1⟩, h1, ⟨nm, r2⟩, h2, ⟨lb, r3⟩, h3, ⟨cm, r4⟩, h4, df, h5, hfin⟩ := hpcd
    rw [← hfin]
  obtain ⟨L1, pcd1, keyinfo, extrab, table0, extra1, columns, indexes, cb, e1, table1,
    hL1, hpcd1, _, _, _, hcols, _, _, _, hfin⟩ := parse_inv C path bytes tbl hparse
  rw [hL] at hL1
  injection hL1 with hLeq
  subst hLeq
  rw [hpcd] at hpcd1
  injection hpcd1 with hPeq
  subst hPeq
  have hlen := unpackColumns_length C pcd table0 columns hcols
  rw [hnames, unpackColumnNames_encode ns hne hfree, List.length_map] at hlen
  have htc : tbl.columns = columns := by rw [hfin]
  refine ⟨?_, hcnt⟩
  rw [htc, hlen, hcount]

/-- Witness for C3 on the concrete sample `.frm` buffer. -/
theorem c3_parse_column_count_witness :
    (parse sampleFrmCollab "t" sampleFrm).map (fun t => t.columns.length) = some 1 := by
  cases h : parse sampleFrmCollab "t" sampleFrm with
  | none => exact absurd h (by decide)
  | some tbl =>
    have hc := c3_parse_column_count sampleFrmCollab "t" sampleFrm sampleLayout samplePcd
      [[97]] tbl (by rfl) (by rfl) (by rfl) (by decide) (by decide) (by rfl) h
    simpa using hc.1

/-- C6: letting `L` be the byte at `forminfo_offset + 46`, the table
comment bytes are the `L` bytes at `forminfo_offset + 47` when
`L ≠ 0xFF`, else the next length-prefixed string of the extrainfo
reader positioned after the three prefixed strings and the skipped 2
bytes; a non-empty comment is decoded with the table's charset. -/
theorem c6_table_comment (C : FrmCollab) (path : String) (bytes : List Nat) (tbl : Table)
    (hparse : parse C path bytes = some tbl) :
    ∃ cb, specCommentBytes bytes = some cb ∧
      (cb = [] → tbl.options.comment = none) ∧
      (cb ≠ [] → ∃ txt, C.decodeText tbl.charset.name cb = some txt ∧
        tbl.options.comment = some txt) := by
  obtain ⟨L, pcd, keyinfo, extrab, table0, extra1, columns, indexes, cb, e1, table1,
    hL, hpcd, hki, hex, hfd, hcols, hidx, hcbp, hac, hfin⟩ := parse_inv C path bytes tbl hparse
  obtain ⟨conn, eng, part, hres, hconn, hpart, heng, hcom⟩ :=
    fromData_inv C ⟨bytes, 2⟩ ⟨extrab, 0⟩ path table0 extra1 hfd
  obtain ⟨tclen, htclen, hcase⟩ := parseCommentBytes_inv L bytes extra1 cb e1 hcbp
  have hex0 : ByteReader.readAt ⟨bytes, 0⟩ L.extrainfo_length L.extrainfo_offset =
      some extrab := hex
  have htclen0 : ByteReader.uint8At ⟨bytes, 0⟩ (L.forminfo_offset + 46) = some tclen :=
    htclen
  refine ⟨cb, ?_, ?_, ?_⟩
  · unfold specCommentBytes
    simp only [hL, htclen0, Option.bind_eq_bind, Option.some_bind]
    rcases hcase with ⟨hne255, hread, _⟩ | ⟨h255, hbp⟩
    · rw [if_pos hne255]
      exact hread
    · rw [if_neg (by simp [h255])]
      simp only [hex0, Option.bind_eq_bind, Option.some_bind]
      rcases readExtraStrings_cases ⟨extrab, 0⟩ conn eng part extra1 hres with
        ⟨hsz, _, _, _, hid⟩ | ⟨hsz, cb1, r1, eb1, r2, pb1, r3, hp1, hp2, hp3, hext, _⟩
      · have hnil : extrab = [] := by
          have : extrab.length = 0 := hsz
          exact List.length_eq_zero.mp this
        subst hnil
        rw [hid] at hbp
        have hnone : ({ data := [], pos := 0 } : ByteReader).bytesPrefix16 = none := rfl
        rw [hnone] at hbp
        simp at hbp
      · rw [hext] at hbp
        simp only [hp1, hp2, hp3, hbp, Option.bind_eq_bind, Option.some_bind,
          Option.pure_def]
  · intro hcb0
    rcases applyComment_inv C table0 cb table1 hac with ⟨_, ht⟩ | ⟨hne, _⟩
    · subst hfin
      subst ht
      exact hcom
    · exact absurd hcb0 hne
  · intro hcbne
    rcases applyComment_inv C table0 cb table1 hac with ⟨hcb0, _⟩ | ⟨_, txt, htxt, ht⟩
    · exact absurd hcb0 hcbne
    · subst hfin
      subst ht
      exact ⟨txt, htxt, rfl⟩

theorem stepRepl_inv (cfg : SplitConfig) (st : SplitState) (s : DumpSection)
    (st' : SplitState) (effs : List Eff) (h : stepRepl cfg st s = some (st', effs)) :
    st' = st ∧ ∃ p c, effs = [Eff.write p "wb" c] := by
  unfold stepRepl at h
  simp only [Option.bind_eq_bind, Option.bind_eq_some, Option.pure_def,
    Option.some.injEq] at h
  obtain ⟨hdr, hh, hfin⟩ := h
  injection hfin.symm with h1 h2
  exact ⟨h1, _, _, h2⟩

theorem stepSchema_inv (cfg : SplitConfig) (st : SplitState) (s : DumpSection)
    (st' : SplitState) (effs : List Eff) (h : stepSchema cfg st s = some (st', effs)) :
    st'.postData = st.postData ∧ st'.viewCount = st.viewCount ∧
    ∃ p c, effs = [Eff.write p "wb" c] := by
  unfold stepSchema at h
  simp only [Option.bind_eq_bind, Option.bind_eq_some, Option.pure_def,
    Option.some.injEq] at h
  obtain ⟨l1, hl1, db, hdb, hdr, hh, hfin⟩ := h
  injection hfin.symm with h1 h2
  subst h1
  exact ⟨rfl, rfl, _, _, h2⟩

theorem stepRoutines_inv (cfg : SplitConfig) (st : SplitState) (s : DumpSection)
    (st' : SplitState) (effs : List Eff) (h : stepRoutines cfg st s = some (st', effs)) :
    st' = st ∧ ∃ p c, effs = [Eff.write p "wb" c] := by
  unfold stepRoutines at h
  simp only [Option.bind_eq_bind, Option.bind_eq_some, Option.pure_def,
    Option.some.injEq] at h
  obtain ⟨db, hdb, hdr, hh, hfin⟩ := h
  injection hfin.symm with h1 h2
  exact ⟨h1, _, _, h2⟩

theorem stepEvents_inv (cfg : SplitConfig) (st : SplitState) (s : DumpSection)
    (st' : SplitState) (effs : List Eff) (h : stepEvents cfg st s = some (st', effs)) :
    st' = st ∧ ∃ p c, effs = [Eff.write p "wb" c] := by
  unfold stepEvents at h
  simp only [Option.bind_eq_bind, Option.bind_eq_some, Option.pure_def,
    Option.some.injEq] at h
  obtain ⟨db, hdb, hdr, hh, hfin⟩ := h
  injection hfin.symm with h1 h2
  exact ⟨h1, _, _, h2⟩

theorem stepHeader_inv (st : SplitState) (s : DumpSection)
    (st' : SplitState) (effs : List Eff) (h : stepHeader st s = some (st', effs)) :
    st'.postData = st.postData ∧ st'.viewCount = st.viewCount ∧ effs = [] := by
  unfold stepHeader at h
  rcases hdb : findHeaderDatabase s.lines with _ | db <;> rw [hdb] at h <;>
    simp only [Option.pure_def, Option.some.injEq] at h <;>
    (injection h.symm with h1 h2; subst h1; exact ⟨rfl, rfl, h2⟩)

theorem stepTableDef_inv (cfg : SplitConfig) (col : SplitCollab) (st : SplitState)
    (s : DumpSection) (st' : SplitState) (effs : List Eff)
    (h : stepTableDef cfg col st s = some (st', effs)) :
    st'.viewCount = st.viewCount ∧
    (effs = [] ∨ ∃ p c, effs = [Eff.write p "wb" c]) ∧
    (st'.postData = st.postData ∨
      (cfg.deferIndexes = true ∧
        strContainsB (col.extractCreateTable (String.join s.lines)) "ENGINE=InnoDB" = true ∧
        st'.postData =
          (col.splitIndexes (col.extractCreateTable (String.join s.lines))
            cfg.deferConstraints).1 ∧
        optStrTruthy st'.postData = true)) := by
  unfold stepTableDef at h
  simp only [Option.bind_eq_bind, Option.bind_eq_some, Option.pure_def,
    Option.some.injEq] at h
  obtain ⟨l1, hl1, table, htab, db, hdb, hrest⟩ := h
  split at hrest
  · next hfil =>
    simp only [Option.bind_eq_bind, Option.bind_eq_some, Option.pure_def,
      Option.some.injEq] at hrest
    obtain ⟨hdr, hh, hfin⟩ := hrest
    injection hfin.symm with h1 h2
    subst h1
    refine ⟨rfl, Or.inr ⟨_, _, h2⟩, ?_⟩
    split
    · next hdefer =>
      split
      · next htruthy =>
        exact Or.inr ⟨hdefer.1, hdefer.2, rfl, htruthy⟩
      · exact Or.inl rfl
    · exact Or.inl rfl
  · next hfil =>
    simp only [Option.pure_def, Option.some.injEq] at hrest
    injection hrest.symm with h1 h2
    subst h1
    refine ⟨rfl, Or.inl h2, ?_⟩
    split
    · next hdefer =>
      split
      · next htruthy =>
        exact Or.inr ⟨hdefer.1, hdefer.2, rfl, htruthy⟩
      · exact Or.inl rfl
    · exact Or.inl rfl

theorem strContains_append (x a y : String) : strContains (x ++ a ++ y) a :=
  ⟨x, y, rfl⟩

theorem strContains_empty (c : String) : strContains c "" :=
  ⟨c, "", by rw [String.append_empty, String.append_empty]⟩

theorem stepTableData_inv (cfg : SplitConfig) (col : SplitCollab) (st : SplitState)
    (s : DumpSection) (st' : SplitState) (effs : List Eff)
    (h : stepTableData cfg col st s = some (st', effs)) :
    st'.viewCount = st.viewCount ∧
    (optStrTruthy st.postData = true → st'.postData = none) ∧
    (optStrTruthy st.postData = false → st'.postData = st.postData) ∧
    (∀ a, st.postData = some a → ∀ p m c, Eff.write p m c ∈ effs → strContains c a) ∧
    (effs = [] ∨ ∃ p c, effs = [Eff.write p "wb" c]) := by
  unfold stepTableData at h
  split at h
  · simp at h
  · simp only [Option.bind_eq_bind, Option.bind_eq_some, Option.pure_def,
      Option.some.injEq] at h
    obtain ⟨l1, hl1, table, htab, db, hdb, hrest⟩ := h
    split at hrest
    · next hfil =>
      simp only [Option.bind_eq_bind, Option.bind_eq_some, Option.pure_def,
        Option.some.injEq] at hrest
      obtain ⟨hdr, hh, hfin⟩ := hrest
      injection hfin.symm with h1 h2
      subst h1
      refine ⟨rfl, fun ht => by simp [ht], fun ht => by simp [ht], ?_,
        Or.inr ⟨_, _, h2⟩⟩
      intro a ha p m c hmem
      rw [h2] at hmem
      simp only [List.mem_singleton] at hmem
      have hc : c = hdr ++ String.join (s.lines.take 3) ++ String.join (s.lines.drop 3) ++
          (if optStrTruthy st.postData = true then
            (postDataHeader ++ st.postData.getD "" ++ "\n", (none : Option String))
          else ("", st.postData)).1 := by
        have := congrArg (fun e => match e with
          | Eff.write _ _ c => c
          | _ => "") hmem
        simpa using this
      by_cases htr : optStrTruthy st.postData = true
      · rw [hc, if_pos htr, ha]
        simp only [Option.getD_some]
        have : hdr ++ String.join (s.lines.take 3) ++ String.join (s.lines.drop 3) ++
            (postDataHeader ++ a ++ "\n") =
            (hdr ++ String.join (s.lines.take 3) ++ String.join (s.lines.drop 3) ++
              postDataHeader) ++ a ++ "\n" := by
          simp [String.append_assoc]
        rw [this]
        exact strContains_append _ a _
      · have ha0 : a = "" := by
          rw [ha] at htr
          unfold optStrTruthy at htr
          simpa using htr
        subst ha0
        exact strContains_empty c
    · next hfil =>
      simp only [Option.pure_def, Option.some.injEq] at hrest
      injection hrest.symm with h1 h2
      subst h1
      exact ⟨rfl, fun ht => by simp [ht], fun ht => by simp [ht],
        fun a ha p m c hmem => by simp [h2] at hmem, Or.inl h2⟩

theorem truncPaths_mem (effs : List Eff) (p : String) :
    p ∈ truncPaths effs ↔ Eff.truncate p ∈ effs := by
  unfold truncPaths
  rw [List.mem_filterMap]
  constructor
  · rintro ⟨e, he, hf⟩
    cases e with
    | write q m c => simp at hf
    | truncate q => simp at hf; rw [← hf]; exact he
    | warn m => simp at hf
  · intro he
    exact ⟨Eff.truncate p, he, rfl⟩

theorem stepViews_inv (cfg : SplitConfig) (col : SplitCollab) (st : SplitState)
    (s : DumpSection) (st' : SplitState) (effs : List Eff)
    (h : stepViews cfg col st s = some (st', effs)) :
    st'.postData = st.postData ∧
    st.viewCount ≤ st'.viewCount ∧
    (∀ p m c, Eff.write p m c ∈ effs → m = "ab") ∧
    (∀ p, Eff.truncate p ∈ effs → st.viewCount = 0 ∧ 1 ≤ st'.viewCount) ∧
    (truncPaths effs).length ≤ 1 ∧
    (∀ db, st.db = some db →
      col.nameFilter (pjoin (pjoin cfg.directory db) "views.sql") = true →
      st.viewCount = 0 →
      Eff.truncate (pjoin (pjoin cfg.directory db) "views.sql") ∈ effs) := by
  unfold stepViews at h
  simp only [Option.bind_eq_bind, Option.bind_eq_some, Option.pure_def,
    Option.some.injEq] at h
  obtain ⟨db, hdb, hrest⟩ := h
  split at hrest
  · next hfil =>
    injection hrest.symm with hp
    injection hp with h1 h2
    subst h1
    by_cases hvc : st.viewCount = 0
    · rw [if_pos hvc] at h2
      refine ⟨rfl, by simp, ?_, ?_, ?_, ?_⟩
      · intro p m c hmem
        rw [h2] at hmem
        simp only [List.cons_append, List.nil_append, List.mem_cons,
          List.not_mem_nil, or_false] at hmem
        rcases hmem with hmem | hmem
        · exact absurd hmem (by simp)
        · have := congrArg (fun e => match e with
            | Eff.write _ m _ => m
            | _ => "") hmem
          simpa [outputEff] using this
      · intro p hmem
        exact ⟨hvc, by simp⟩
      · rw [h2]
        simp [truncPaths, outputEff]
      · intro db2 hdb2 hfil2 _
        rw [hdb] at hdb2
        injection hdb2 with hdbeq
        subst hdbeq
        rw [h2]
        simp
    · rw [if_neg hvc] at h2
      refine ⟨rfl, by simp, ?_, ?_, ?_, ?_⟩
      · intro p m c hmem
        rw [h2] at hmem
        simp only [List.nil_append, List.mem_cons, List.not_mem_nil,
          or_false] at hmem
        have := congrArg (fun e => match e with
          | Eff.write _ m _ => m
          | _ => "") hmem
        simpa [outputEff] using this
      · intro p hmem
        rw [h2] at hmem
        simp [outputEff] at hmem
      · rw [h2]
        simp [truncPaths, outputEff]
      · intro db2 hdb2 hfil2 hvc2
        exact absurd hvc2 hvc
  · next hfil =>
    injection hrest.symm with hp
    injection hp with h1 h2
    subst h1
    refine ⟨rfl, le_refl _, ?_, ?_, ?_, ?_⟩
    · intro p m c hmem
      rw [h2] at hmem
      simp at hmem
    · intro p hmem
      rw [h2] at hmem
      simp at hmem
    · rw [h2]
      simp [truncPaths]
    · intro db2 hdb2 hfil2 _
      rw [hdb] at hdb2
      injection hdb2 with hdbeq
      subst hdbeq
      exact absurd hfil2 (by simp [hfil])

theorem truncPaths_append (a b : List Eff) :
    truncPaths (a ++ b) = truncPaths a ++ truncPaths b :=
  List.filterMap_append a b _

theorem step_trunc (cfg : SplitConfig) (col : SplitCollab) (st : SplitState)
    (s : DumpSection) (st' : SplitState) (effs : List Eff)
    (h : step cfg col st s = some (st', effs)) :
    st.viewCount ≤ st'.viewCount ∧
    (truncPaths effs).length ≤ 1 ∧
    (∀ p, Eff.truncate p ∈ effs → st.viewCount = 0) ∧
    ((∃ p, Eff.truncate p ∈ effs) → 1 ≤ st'.viewCount) := by
  unfold step at h
  split_ifs at h with k1 k2 k3 k4 k5 k6 k7 k8
  · obtain ⟨h1, p, c, h2⟩ := stepRepl_inv cfg st s st' effs h
    subst h1; subst h2
    exact ⟨le_refl _, by simp [truncPaths], fun p hp => by simp at hp,
      fun hex => absurd hex (by simp)⟩
  · obtain ⟨hpd, hvc, p, c, h2⟩ := stepSchema_inv cfg st s st' effs h
    subst h2
    exact ⟨le_of_eq hvc.symm, by simp [truncPaths], fun p hp => by simp at hp,
      fun hex => absurd hex (by simp)⟩
  · obtain ⟨h1, p, c, h2⟩ := stepRoutines_inv cfg st s st' effs h
    subst h1; subst h2
    exact ⟨le_refl _, by simp [truncPaths], fun p hp => by simp at hp,
      fun hex => absurd hex (by simp)⟩
  · obtain ⟨h1, p, c, h2⟩ := stepEvents_inv cfg st s st' effs h
    subst h1; subst h2
    exact ⟨le_refl _, by simp [truncPaths], fun p hp => by simp at hp,
      fun hex => absurd hex (by simp)⟩
  · obtain ⟨hvc, heffs, _⟩ := stepTableDef_inv cfg col st s st' effs h
    rcases heffs with h2 | ⟨p, c, h2⟩ <;> subst h2
    · exact ⟨le_of_eq hvc.symm, by simp [truncPaths], fun p hp => by simp at hp,
        fun hex => absurd hex (by simp)⟩
    · exact ⟨le_of_eq hvc.symm, by simp [truncPaths], fun p hp => by simp at hp,
        fun hex => absurd hex (by simp)⟩
  · obtain ⟨hvc, _, _, _, heffs⟩ := stepTableData_inv cfg col st s st' effs h
    rcases heffs with h2 | ⟨p, c, h2⟩ <;> subst h2
    · exact ⟨le_of_eq hvc.symm, by simp [truncPaths], fun p hp => by simp at hp,
        fun hex => absurd hex (by simp)⟩
    · exact ⟨le_of_eq hvc.symm, by simp [truncPaths], fun p hp => by simp at hp,
        fun hex => absurd hex (by simp)⟩
  · obtain ⟨_, hvc, h2⟩ := stepHeader_inv st s st' effs h
    subst h2
    exact ⟨le_of_eq hvc.symm, by simp [truncPaths], fun p hp => by simp at hp,
      fun hex => absurd hex (by simp)⟩
  · obtain ⟨_, hmono, _, htr, hlen, _⟩ := stepViews_inv cfg col st s st' effs h
    exact ⟨hmono, hlen, fun p hp => (htr p hp).1, fun ⟨p, hp⟩ => (htr p hp).2⟩
  · simp only [Option.pure_def, Option.some.injEq] at h
    injection h.symm with h1 h2
    subst h1; subst h2
    exact ⟨le_refl _, by simp [truncPaths], fun p hp => by simp at hp,
      fun hex => absurd hex (by simp)⟩

theorem runSplit_trunc (cfg : SplitConfig) (col : SplitCollab) :
    ∀ (sections : List DumpSection) (st stF : SplitState) (effs : List Eff),
      runSplit cfg col st sections = some (stF, effs) →
      st.viewCount ≤ stF.viewCount ∧
      (truncPaths effs).length ≤ 1 ∧
      (st.viewCount ≠ 0 → truncPaths effs = []) := by
  intro sections
  induction sections with
  | nil =>
    intro st stF effs h
    simp only [runSplit, Option.some.injEq, Prod.mk.injEq] at h
    obtain ⟨h1, h2⟩ := h
    subst h1
    subst h2
    exact ⟨le_refl _, by simp [truncPaths], fun _ => rfl⟩
  | cons sec rest ih =>
    intro st stF effs h
    unfold runSplit at h
    simp only [Option.bind_eq_bind, Option.bind_eq_some, Option.pure_def,
      Option.some.injEq, Prod.mk.injEq] at h
    obtain ⟨⟨st1, e1⟩, hstep, ⟨st2, e2⟩, hrun, hst2, heffs⟩ := h
    subst hst2
    subst heffs
    obtain ⟨hmono1, hlen1, htr1, hpos1⟩ := step_trunc cfg col st sec st1 e1 hstep
    obtain ⟨hmono2, hlen2, hzero2⟩ := ih st1 _ e2 hrun
    refine ⟨le_trans hmono1 hmono2, ?_, ?_⟩
    · rw [truncPaths_append, List.length_append]
      by_cases h1nil : truncPaths e1 = []
      · rw [h1nil]
        simpa using hlen2
      · obtain ⟨p, hp⟩ := List.exists_mem_of_ne_nil _ h1nil
        have hmem : Eff.truncate p ∈ e1 := (truncPaths_mem e1 p).mp hp
        have h1le : 1 ≤ st1.viewCount := hpos1 ⟨p, hmem⟩
        have h2nil : truncPaths e2 = [] := hzero2 (by omega)
        rw [h2nil]
        simpa using hlen1
    · intro hvc
      have h1nil : truncPaths e1 = [] := by
        by_contra hne
        obtain ⟨p, hp⟩ := List.exists_mem_of_ne_nil _ hne
        exact hvc (htr1 p ((truncPaths_mem e1 p).mp hp))
      have h2nil : truncPaths e2 = [] := hzero2 (by omega)
      rw [truncPaths_append, h1nil, h2nil]
      rfl

/-- C1 (amended): at most one pending deferred ALTER exists (a single
optional slot); it changes only at `table_definition` and `table_data`
sections; a truthy pending ALTER is consumed and cleared by the next
`table_data` section regardless of that section's extracted table name,
with the ALTER text injected into that section's written output; and a
`table_definition` section either leaves it unchanged or stores the
truthy ALTER returned by `split_indexes` under the defer-indexes and
`ENGINE=InnoDB` guards. -/
theorem c1_pending_alter_lifecycle (cfg : SplitConfig) (col : SplitCollab)
    (st : SplitState) (s : DumpSection) (st' : SplitState) (effs : List Eff)
    (h : step cfg col st s = some (st', effs)) :
    (s.kind ≠ "table_definition" ∧ s.kind ≠ "table_data" → st'.postData = st.postData) ∧
    (s.kind = "table_data" → optStrTruthy st.postData = true → st'.postData = none) ∧
    (s.kind = "table_data" → optStrTruthy st.postData = false →
      st'.postData = st.postData) ∧
    (s.kind = "table_data" → ∀ a, st.postData = some a →
      ∀ p m c, Eff.write p m c ∈ effs → strContains c a) ∧
    (s.kind = "table_definition" →
      st'.postData = st.postData ∨
      (cfg.deferIndexes = true ∧
        strContainsB (col.extractCreateTable (String.join s.lines)) "ENGINE=InnoDB" = true ∧
        st'.postData =
          (col.splitIndexes (col.extractCreateTable (String.join s.lines))
            cfg.deferConstraints).1 ∧
        optStrTruthy st'.postData = true)) := by
  unfold step at h
  split_ifs at h with k1 k2 k3 k4 k5 k6 k7 k8
  · obtain ⟨h1, p, c, h2⟩ := stepRepl_inv cfg st s st' effs h
    subst h1
    refine ⟨fun _ => rfl, fun hk => ?_, fun hk => ?_, fun hk => ?_, fun hk => ?_⟩ <;>
      (rw [hk] at k1; exact absurd k1 (by decide))
  · obtain ⟨hpd, hvc, p, c, h2⟩ := stepSchema_inv cfg st s st' effs h
    refine ⟨fun _ => hpd, fun hk => ?_, fun hk => ?_, fun hk => ?_, fun hk => ?_⟩ <;>
      (rw [hk] at k2; exact absurd k2 (by decide))
  · obtain ⟨h1, p, c, h2⟩ := stepRoutines_inv cfg st s st' effs h
    subst h1
    refine ⟨fun _ => rfl, fun hk => ?_, fun hk => ?_, fun hk => ?_, fun hk => ?_⟩ <;>
      (rw [hk] at k3; exact absurd k3 (by decide))
  · obtain ⟨h1, p, c, h2⟩ := stepEvents_inv cfg st s st' effs h
    subst h1
    refine ⟨fun _ => rfl, fun hk => ?_, fun hk => ?_, fun hk => ?_, fun hk => ?_⟩ <;>
      (rw [hk] at k4; exact absurd k4 (by decide))
  · obtain ⟨hvc, heffs, hpd⟩ := stepTableDef_inv cfg col st s st' effs h
    refine ⟨fun hne => absurd k5 hne.1, fun hk => ?_, fun hk => ?_, fun hk => ?_,
      fun _ => hpd⟩ <;> (rw [hk] at k5; exact absurd k5 (by decide))
  · obtain ⟨hvc, hclear, hkeep, hcont, heffs⟩ := stepTableData_inv cfg col st s st' effs h
    exact ⟨fun hne => absurd k6 hne.2, fun _ => hclear, fun _ => hkeep,
      fun _ => hcont, fun hk => by rw [hk] at k6; exact absurd k6 (by decide)⟩
  · obtain ⟨hpd, hvc, h2⟩ := stepHeader_inv st s st' effs h
    refine ⟨fun _ => hpd, fun hk => absurd hk k6, fun hk => absurd hk k6,
      fun hk => absurd hk k6, fun hk => absurd hk k5⟩
  · obtain ⟨hpd, _, _, _, _, _⟩ := stepViews_inv cfg col st s st' effs h
    refine ⟨fun _ => hpd, fun hk => absurd hk k6, fun hk => absurd hk k6,
      fun hk => absurd hk k6, fun hk => absurd hk k5⟩
  · simp only [Option.pure_def, Option.some.injEq] at h
    injection h.symm with h1 h2
    subst h1
    refine ⟨fun _ => rfl, fun hk => absurd hk k6, fun hk => absurd hk k6,
      fun hk => absurd hk k6, fun hk => absurd hk k5⟩

/-- Witness for C1 (amended) at a concrete step: a pending ALTER for
table `a` is cleared by the data section of table `b`. -/
theorem c1_pending_alter_lifecycle_witness :
    (step cfg1 sampleSplitCollab stPending dataSectionB).map (fun p => p.1.postData) =
      some none := by
  cases h : step cfg1 sampleSplitCollab stPending dataSectionB with
  | none => exact absurd h (by decide)
  | some pr =>
    obtain ⟨st', effs⟩ := pr
    have hc :=
      c1_pending_alter_lifecycle cfg1 sampleSplitCollab stPending dataSectionB st' effs h
    have hclear := hc.2.1 rfl (by decide)
    simp [hclear]

/-- C2 (amended): view sections are always written in append mode and
all other sections in truncating write mode; a bare truncation of the
unextended `views.sql` path happens only in a view section when no view
has been written yet in the entire run (the global `view_count` is 0),
it is emitted whenever such a section passes the name filter, and a
full run from the initial state performs at most one truncation
overall, regardless of how many databases have views. -/
theorem c2_views_truncation :
    (∀ cfg col st s st' effs, step cfg col st s = some (st', effs) →
      (∀ p m c, Eff.write p m c ∈ effs → (m = "ab" ↔ isViewKind s.kind = true)) ∧
      (∀ p, Eff.truncate p ∈ effs → isViewKind s.kind = true ∧ st.viewCount = 0) ∧
      (isViewKind s.kind = true → st.viewCount = 0 →
        ∀ db, st.db = some db →
        col.nameFilter (pjoin (pjoin cfg.directory db) "views.sql") = true →
        Eff.truncate (pjoin (pjoin cfg.directory db) "views.sql") ∈ effs)) ∧
    (∀ cfg col sections stF effs,
      runSplit cfg col initSplitState sections = some (stF, effs) →
      (truncPaths effs).length ≤ 1) := by
  constructor
  · intro cfg col st s st' effs h
    unfold step at h
    split_ifs at h with k1 k2 k3 k4 k5 k6 k7 k8
    · obtain ⟨h1, p, c, h2⟩ := stepRepl_inv cfg st s st' effs h
      subst h2
      have hvk : isViewKind s.kind = false := by simp [isViewKind, k1]
      refine ⟨?_, ?_, ?_⟩
      · intro p m c hmem
        simp only [List.mem_singleton] at hmem
        injection hmem with hp hm hcc
        rw [hm, hvk]
        simp
      · intro p hp
        simp at hp
      · intro hv
        rw [hvk] at hv
        exact absurd hv (by simp)
    · obtain ⟨hpd, hvc, p, c, h2⟩ := stepSchema_inv cfg st s st' effs h
      subst h2
      have hvk : isViewKind s.kind = false := by simp [isViewKind, k2]
      refine ⟨?_, ?_, ?_⟩
      · intro p m c hmem
        simp only [List.mem_singleton] at hmem
        injection hmem with hp hm hcc
        rw [hm, hvk]
        simp
      · intro p hp
        simp at hp
      · intro hv
        rw [hvk] at hv
        exact absurd hv (by simp)
    · obtain ⟨h1, p, c, h2⟩ := stepRoutines_inv cfg st s st' effs h
      subst h2
      have hvk : isViewKind s.kind = false := by simp [isViewKind, k3]
      refine ⟨?_, ?_, ?_⟩
      · intro p m c hmem
        simp only [List.mem_singleton] at hmem
        injection hmem with hp hm hcc
        rw [hm, hvk]
        simp
      · intro p hp
        simp at hp
      · intro hv
        rw [hvk] at hv
        exact absurd hv (by simp)
    · obtain ⟨h1, p, c, h2⟩ := stepEvents_inv cfg st s st' effs h
      subst h2
      have hvk : isViewKind s.kind = false := by simp [isViewKind, k4]
      refine ⟨?_, ?_, ?_⟩
      · intro p m c hmem
        simp only [List.mem_singleton] at hmem
        injection hmem with hp hm hcc
        rw [hm, hvk]
        simp
      · intro p hp
        simp at hp
      · intro hv
        rw [hvk] at hv
        exact absurd hv (by simp)
    · obtain ⟨hvc, heffs, hpd⟩ := stepTableDef_inv cfg col st s st' effs h
      have hvk : isViewKind s.kind = false := by simp [isViewKind, k5]
      refine ⟨?_, ?_, ?_⟩
      · intro p m c hmem
        rcases heffs with h2 | ⟨q, cc, h2⟩ <;> subst h2
        · simp at hmem
        · simp only [List.mem_singleton] at hmem
          injection hmem with hp hm hcc
          rw [hm, hvk]
          simp
      · intro p hp
        rcases heffs with h2 | ⟨q, cc, h2⟩ <;> subst h2 <;> simp at hp
      · intro hv
        rw [hvk] at hv
        exact absurd hv (by simp)
    · obtain ⟨hvc, _, _, _, heffs⟩ := stepTableData_inv cfg col st s st' effs h
      have hvk : isViewKind s.kind = false := by simp [isViewKind, k6]
      refine ⟨?_, ?_, ?_⟩
      · intro p m c hmem
        rcases heffs with h2 | ⟨q, cc, h2⟩ <;> subst h2
        · simp at hmem
        · simp only [List.mem_singleton] at hmem
          injection hmem with hp hm hcc
          rw [hm, hvk]
          simp
      · intro p hp
        rcases heffs with h2 | ⟨q, cc, h2⟩ <;> subst h2 <;> simp at hp
      · intro hv
        rw [hvk] at hv
        exact absurd hv (by simp)
    · obtain ⟨hpd, hvc, h2⟩ := stepHeader_inv st s st' effs h
      subst h2
      have hvk : isViewKind s.kind = false := by simp [isViewKind, k7]
      refine ⟨fun p m c hmem => by simp at hmem, fun p hp => by simp at hp, ?_⟩
      intro hv
      rw [hvk] at hv
      exact absurd hv (by simp)
    · obtain ⟨hpd, hmono, hab, htr, hlen, hpos⟩ := stepViews_inv cfg col st s st' effs h
      refine ⟨?_, ?_, ?_⟩
      · intro p m c hmem
        rw [hab p m c hmem, k8]
        simp
      · intro p hp
        exact ⟨k8, (htr p hp).1⟩
      · intro _ hvc0 db hdb hfil
        exact hpos db hdb hfil hvc0
    · simp only [Option.pure_def, Option.some.injEq] at h
      injection h.symm with h1 h2
      subst h2
      have hvk : isViewKind s.kind = false := by
        cases hik : isViewKind s.kind
        · rfl
        · exact absurd hik k8
      refine ⟨fun p m c hmem => by simp at hmem, fun p hp => by simp at hp, ?_⟩
      intro hv
      rw [hvk] at hv
      exact absurd hv (by simp)
  · intro cfg col sections stF effs h
    exact (runSplit_trunc cfg col sections initSplitState stF effs h).2.1

/-- Witness for C2 (amended) on a concrete two-database run: the run
succeeds and its effect list contains at most one truncation. -/
theorem c2_views_truncation_witness :
    (runSplit cfg1 sampleSplitCollab initSplitState c2Events).map
        (fun p => decide ((truncPaths p.2).length ≤ 1)) = some true := by
  cases h : runSplit cfg1 sampleSplitCollab initSplitState c2Events with
  | none => exact absurd h (by decide)
  | some pr =>
    obtain ⟨stF, effs⟩ := pr
    have hc := c2_views_truncation.2 cfg1 sampleSplitCollab c2Events stF effs h
    simp [decide_eq_true hc]

/-- Witness for C6 on the sample `.frm` buffer whose short table
comment is `abc`. -/
theorem c6_table_comment_witness :
    specCommentBytes sampleFrm2 = some [97, 98, 99] ∧
    (parse sampleFrmCollab "t" sampleFrm2).map (fun t => t.options.comment) =
      some (some "abc") := by
  refine ⟨by rfl, ?_⟩
  cases h : parse sampleFrmCollab "t" sampleFrm2 with
  | none => exact absurd h (by decide)
  | some tbl =>
    obtain ⟨cb, hcb, h0, h1⟩ := c6_table_comment sampleFrmCollab "t" sampleFrm2 tbl h
    have hs : specCommentBytes sampleFrm2 = some [97, 98, 99] := by rfl
    rw [hs] at hcb
    injection hcb with hcbv
    subst hcbv
    obtain ⟨txt, htxt, hcomm⟩ := h1 (by decide)
    have hd : sampleFrmCollab.decodeText tbl.charset.name [97, 98, 99] = some "abc" := rfl
    rw [hd] at htxt
    injection htxt with htxtv
    subst htxtv
    simp [hcomm]

end Dbsake
